import Mathlib

/-!
# upscale-simple: the local fallback upscaler and the enhancement pipeline

A shallow embedding of `src/js/upscaler.js`.

* Pixel buffers (`Uint8ClampedArray`) are lists of naturals, four samples per
  pixel in the order R, G, B, A.
* JavaScript numbers that the code uses as indices are integers (`Int`), so
  that `y + ky` with `ky = -1` and `height - 1` with `height = 0` mean what
  they mean in the source.
* Reading a typed array or a plain array outside its range yields
  `undefined`, which turns the running sum into `NaN`; `NaN` is `none`.
* The asynchronous functions are run against a `Host` that fixes what the
  browser and the two remote services answer; they return their result
  together with the list of observable events, in order.
-/

namespace Upscaler

/-! ## The sharpening filter (`applySharpeningFilter`, lines 177-212) -/

/-- The values `lo, lo+1, ..., hi-1` a loop `for (i = lo; i < hi; i++)` visits. -/
def loopIndices (lo hi : Int) : List Int :=
  (List.range (hi - lo).toNat).map (fun (i : Nat) => lo + (i : Int))

/-- The loop `for (let i = lo; i < hi; i++) s = body i s`. -/
def forLoop {σ : Type} (lo hi : Int) (body : Int → σ → σ) (s : σ) : σ :=
  (loopIndices lo hi).foldl (fun acc i => body i acc) s

/-- The constant `kernel` of lines 184-188. -/
def kernel : List Int :=
  [ 0, -1,  0,
   -1,  5, -1,
    0, -1,  0]

/-- The read `data[idx]` of a typed array: `none` stands for `undefined`. -/
def readSample (data : List Nat) (idx : Int) : Option Int :=
  if idx < 0 then none else (data[idx.toNat]?).map Int.ofNat

/-- The read `kernel[i]`: `none` stands for `undefined`. -/
def readKernel (i : Int) : Option Int :=
  if i < 0 then none else kernel[i.toNat]?

/-- The update `sum += a * b`, where `none` is `NaN` (an `undefined` operand
makes the product, and then the sum, `NaN`). -/
def addProduct (sum a b : Option Int) : Option Int :=
  match sum, a, b with
  | some s, some u, some v => some (s + u * v)
  | _, _, _ => none

/-- The index `((y + ky) * width + (x + kx)) * 4 + c` of line 196. -/
def readIndex (width : Nat) (y x c ky kx : Int) : Int :=
  ((y + ky) * (width : Int) + (x + kx)) * 4 + c

/-- The index `(ky + 1) * 3 + (kx + 1)` of line 197. -/
def kernelIndex (ky kx : Int) : Int :=
  (ky + 1) * 3 + (kx + 1)

/-- The index `(y * width + x) * 4 + c` of line 200. -/
def writeIndex (width : Nat) (y x c : Int) : Int :=
  (y * (width : Int) + x) * 4 + c

/-- The two inner loops of lines 193-199: the value of `sum` after them. -/
def convolve (data : List Nat) (width : Nat) (y x c : Int) : Option Int :=
  forLoop (-1) 2 (fun ky sum =>
    forLoop (-1) 2 (fun kx sum =>
      addProduct sum (readSample data (readIndex width y x c ky kx))
        (readKernel (kernelIndex ky kx))) sum) (some 0)

/-- The value `Math.max(0, Math.min(255, sum))` as a `Uint8ClampedArray`
stores it: a `NaN` is stored as `0`. -/
def clampSample (sum : Option Int) : Nat :=
  match sum with
  | none => 0
  | some s => (max 0 (min 255 s)).toNat

/-- The write `output[idx] = v` of a typed array: outside the range it does
nothing. -/
def writeSample (output : List Nat) (idx : Int) (v : Nat) : List Nat :=
  if idx < 0 then output else output.set idx.toNat v

/-- Lines 181-204: `output` starts as a copy of `data`, and the three outer
loops store the clamped sums, always read from `data`. -/
def sharpenLoops (width height : Nat) (data : List Nat) : List Nat :=
  forLoop 1 ((height : Int) - 1) (fun y output =>
    forLoop 1 ((width : Int) - 1) (fun x output =>
      forLoop 0 3 (fun c output =>
        writeSample output (writeIndex width y x c)
          (clampSample (convolve data width y x c))) output) output) data

/-- The call `ctx.getImageData(0, 0, width, height)` on a canvas whose bitmap
is `bitmap` and has these dimensions: it throws an `IndexSizeError` when a
dimension is zero. -/
def getImageData (width height : Nat) (bitmap : List Nat) : Except String (List Nat) :=
  if width = 0 ∨ height = 0 then .error "IndexSizeError" else .ok bitmap

/-- The function `applySharpeningFilter(ctx, width, height)`, on the bitmap of
the canvas: the bitmap after `putImageData`, or the untouched bitmap when the
`try` block throws (`catch`: continue without sharpening). -/
def applySharpeningFilter (width height : Nat) (bitmap : List Nat) : List Nat :=
  match getImageData width height bitmap with
  | .ok data => sharpenLoops width height data
  | .error _ => bitmap

/-- The write `output[idx] = v`, failing (`none`) when the index is outside
the array instead of doing nothing. -/
def writeSampleChecked (output : List Nat) (idx : Int) (v : Nat) : Option (List Nat) :=
  if 0 ≤ idx ∧ idx < (output.length : Int) then some (output.set idx.toNat v) else none

/-- Lines 181-204 again, with every access checked: the result is `none` as
soon as one read of `data` or of `kernel` is outside its array (the sum is
then `none`) or one write is outside `output`. -/
def sharpenLoopsChecked (width height : Nat) (data : List Nat) : Option (List Nat) :=
  forLoop 1 ((height : Int) - 1) (fun y output =>
    forLoop 1 ((width : Int) - 1) (fun x output =>
      forLoop 0 3 (fun c output =>
        output.bind (fun out =>
          (convolve data width y x c).bind (fun sum =>
            writeSampleChecked out (writeIndex width y x c) (clampSample (some sum)))))
        output) output) (some data)

/-- The function `applySharpeningFilter` with every array access checked:
`none` when an access is outside its array. -/
def applySharpeningFilterChecked (width height : Nat) (bitmap : List Nat) :
    Option (List Nat) :=
  match getImageData width height bitmap with
  | .ok data => sharpenLoopsChecked width height data
  | .error _ => some bitmap

/-- The sample of the input at a natural index, as the integer the sum uses. -/
def sampleAt (data : List Nat) (i : Nat) : Int :=
  ((data.getD i 0 : Nat) : Int)

/-- The buffer of a `width` by `height` image whose every pixel is `(r, g, b, a)`. -/
def uniformBuffer (width height r g b a : Nat) : List Nat :=
  (List.replicate (width * height) [r, g, b, a]).flatten

/-! ## The host: the browser and the remote services -/

/-- The selected file `window.currentFile`, of which the code reads `size`. -/
structure File where
  size : Nat

/-- A decoded image or a canvas: its dimensions and its RGBA samples. -/
structure Surface where
  width : Nat
  height : Nat
  data : List Nat

/-- The JSON body the primary service answers with: `status` (the empty
string when the field is absent), and `img` when the field is present and
truthy. -/
structure PrimaryPayload where
  status : String
  img : Option String

/-- The JSON body the alternative service answers with: `output_url` when the
field is present and truthy. -/
structure AlternativePayload where
  output_url : Option String

/-- What a call of `fetch` followed by `response.json()` does: the fetch
rejects, or it resolves with a response whose `ok` flag is given and whose
body parses to a payload (`none`: `response.json()` rejects, or the body is
not an object and reading a field of it throws). -/
inductive FetchOutcome (Payload : Type) where
  | networkError : FetchOutcome Payload
  | response (ok : Bool) (json : Option Payload) : FetchOutcome Payload

/-- Everything outside the code that a run of `enhanceImage` depends on. -/
structure Host where
  /-- The global `window.currentFile`. -/
  currentFile : Option File
  /-- What `fileToBase64(window.currentFile)` resolves with, `none` when it rejects. -/
  base64 : Option String
  /-- The answer of `https://api.waifu2x.udp.jp/api`. -/
  primary : FetchOutcome PrimaryPayload
  /-- The answer of `https://api.deepai.org/api/waifu2x`. -/
  alternative : FetchOutcome AlternativePayload
  /-- The preview image once loaded, `none` when `img.onerror` fires. -/
  previewImg : Option Surface
  /-- The bitmap `drawImage(source, 0, 0, w, h)` leaves on a fresh `w` by `h` canvas. -/
  drawImage : Surface → Nat → Nat → List Nat
  /-- The string `canvas.toDataURL` returns for a canvas. -/
  toDataURL : Surface → String

/-- The two canvases of `clientUpscale`. -/
inductive CanvasId where
  | canvas
  | tempCanvas
  deriving DecidableEq

/-- The calls a run makes that are visible outside the code, with the
arguments that matter. Calls of `console` are left out. -/
inductive Event where
  | showError (message : String)
  | showWarning (message : String)
  | toggleLoading (toggled : Bool)
  | toggleResult (toggled : Bool)
  | fileToBase64
  | fetch (url : String) (scale : Int)
  | setResultSrc (src : String)
  | createCanvas (id : CanvasId)
  | loadPreview
  | drawImage (target : CanvasId) (sourceWidth sourceHeight width height : Nat)
  | applySharpeningFilter (width height : Nat)
  | toDataURL
  deriving DecidableEq

/-- The calls that only the local fallback makes: those of `clientUpscale`
and `applySharpeningFilter`. -/
def Event.isLocal : Event → Bool
  | .createCanvas _ => true
  | .loadPreview => true
  | .drawImage _ _ _ _ _ => true
  | .applySharpeningFilter _ _ => true
  | .toDataURL => true
  | _ => false

/-- A run of an asynchronous function: the value it resolves with, or the
error it rejects with, and the calls it made, in order. -/
structure Run (α : Type) where
  result : Except String α
  trace : List Event

/-- The statement `return a`. -/
def Run.ret {α : Type} (a : α) : Run α := ⟨.ok a, []⟩

/-- The statement `throw e` (or a rejected promise). -/
def Run.raise {α : Type} (e : String) : Run α := ⟨.error e, []⟩

/-- One call visible outside. -/
def Run.emit (e : Event) : Run Unit := ⟨.ok (), [e]⟩

/-- Sequencing, `await` included: what follows runs only when `m` resolves. -/
def Run.andThen {α β : Type} (m : Run α) (f : α → Run β) : Run β :=
  match m.result with
  | .ok a => ⟨(f a).result, m.trace ++ (f a).trace⟩
  | .error e => ⟨.error e, m.trace⟩

/-- The statement `try m catch (error) handler`. -/
def Run.tryCatch {α : Type} (m : Run α) (handler : String → Run α) : Run α :=
  match m.result with
  | .ok a => ⟨.ok a, m.trace⟩
  | .error e => ⟨(handler e).result, m.trace ++ (handler e).trace⟩

/-- The statement `try m finally cleanup`. -/
def Run.tryFinally {α : Type} (m : Run α) (cleanup : Run Unit) : Run α :=
  match cleanup.result with
  | .ok _ => ⟨m.result, m.trace ++ cleanup.trace⟩
  | .error e => ⟨.error e, m.trace ++ cleanup.trace⟩

/-! ## The utilities of `utils.js` that the pipeline calls -/

/-- The function `showError` of `utils.js`. -/
def showError (message : String) : Run Unit := Run.emit (.showError message)

/-- The function `showWarning` of `utils.js`. -/
def showWarning (message : String) : Run Unit := Run.emit (.showWarning message)

/-- The function `toggleLoading` of `utils.js`. -/
def toggleLoading (toggled : Bool) : Run Unit := Run.emit (.toggleLoading toggled)

/-- The function `toggleResult` of `utils.js`. -/
def toggleResult (toggled : Bool) : Run Unit := Run.emit (.toggleResult toggled)

/-- The call `fileToBase64(window.currentFile)`. -/
def fileToBase64 (host : Host) : Run String :=
  Run.andThen (Run.emit .fileToBase64) (fun _ =>
    match host.base64 with
    | some s => Run.ret s
    | none => Run.raise "FileReader error")

/-- The assignment `document.getElementById(resultImg).src = src`. -/
def setResultSrc (src : String) : Run Unit := Run.emit (.setResultSrc src)

/-- A call `await fetch(url, ...)` whose body carries `scale`: the response
(its `ok` flag and its body), unless the fetch rejects. -/
def fetch {Payload : Type} (url : String) (scale : Int) (outcome : FetchOutcome Payload) :
    Run (Bool × Option Payload) :=
  Run.andThen (Run.emit (.fetch url scale)) (fun _ =>
    match outcome with
    | .networkError => Run.raise "TypeError: Failed to fetch"
    | .response ok json => Run.ret (ok, json))

/-- The call `await response.json()`. -/
def responseJson {Payload : Type} (json : Option Payload) : Run Payload :=
  match json with
  | some data => Run.ret data
  | none => Run.raise "SyntaxError: malformed JSON"

/-! ## The pipeline of `upscaler.js` -/

/-- The address of the primary service (line 54). -/
def primaryUrl : String := "https://api.waifu2x.udp.jp/api"

/-- The address of the alternative service (line 98). -/
def alternativeUrl : String := "https://api.deepai.org/api/waifu2x"

/-- The message of line 9. -/
def noImageMessage : String := "No image selected"

/-- The message of line 16. -/
def tooLargeMessage : String :=
  "Image too large for AI upscaling. Please use an image under 5MB."

/-- The message of line 30. -/
def fallbackMessage : String :=
  "Using basic upscaling. For best quality, try a smaller image with AI upscaling."

/-- The message of line 36. -/
def failedMessage : String :=
  "Failed to enhance image. Please try again or use a different image."

/-- The constant `maxSize` of line 14. -/
def maxSize : Nat := 5 * 1024 * 1024

/-- The function `tryAlternativeWaifu2x` (lines 89-119). -/
def tryAlternativeWaifu2x (host : Host) (scale : Int) : Run Bool :=
  Run.tryCatch
    (Run.andThen (fetch alternativeUrl scale host.alternative) (fun response =>
      if response.1 then
        Run.andThen (responseJson response.2) (fun data =>
          match data.output_url with
          | some url => Run.andThen (setResultSrc url) (fun _ => Run.ret true)
          | none => Run.ret false)
      else Run.ret false))
    (fun _ => Run.ret false)

/-- The function `tryApiUpscale` (lines 48-82). -/
def tryApiUpscale (host : Host) (scale : Int) : Run Bool :=
  Run.tryCatch
    (Run.andThen (fileToBase64 host) (fun _ =>
      Run.andThen (fetch primaryUrl scale host.primary) (fun response =>
        if response.1 then
          Run.andThen (responseJson response.2) (fun data =>
            if data.status = "success" then
              match data.img with
              | some img =>
                Run.andThen (setResultSrc ("data:image/png;base64," ++ img))
                  (fun _ => Run.ret true)
              | none => tryAlternativeWaifu2x host scale
            else tryAlternativeWaifu2x host scale)
        else tryAlternativeWaifu2x host scale)))
    (fun _ => tryAlternativeWaifu2x host scale)

/-- The largest value a canvas dimension holds (`2^31 - 1`). -/
def maxCanvasSize : Nat := 2147483647

/-- The size a canvas reports after `canvas.width = v` (or `height`): the
attribute is a reflected unsigned long. The number is converted to an unsigned
long, that is taken modulo `2^32`, and a result above `2147483647` is replaced
by the default of the attribute (300 for the width, 150 for the height). -/
def canvasSize (v : Int) (fallback : Nat) : Nat :=
  if v % 4294967296 ≤ (maxCanvasSize : Int) then (v % 4294967296).toNat else fallback

/-- The call `ctx.drawImage(source, 0, 0, width, height)` on the context of
the canvas `target`, of that size: the bitmap it leaves. It throws an
`InvalidStateError` when the source is a canvas with a dimension of zero. -/
def drawImage (host : Host) (target : CanvasId) (source : Surface) (sourceIsCanvas : Bool)
    (width height : Nat) : Run (List Nat) :=
  if sourceIsCanvas = true ∧ (source.width = 0 ∨ source.height = 0) then
    Run.raise "InvalidStateError"
  else
    Run.andThen (Run.emit (.drawImage target source.width source.height width height))
      (fun _ => Run.ret (host.drawImage source width height))

/-- Lines 133-157, the body of `img.onload` up to the sharpening: the canvas
these lines leave. -/
def renderUpscaled (host : Host) (img : Surface) (scale : Int) : Run Surface :=
  let width := canvasSize ((img.width : Int) * scale) 300
  let height := canvasSize ((img.height : Int) * scale) 150
  Run.andThen
    (if scale > 2 then
      let tempWidth := canvasSize ((img.width : Int) * 2) 300
      let tempHeight := canvasSize ((img.height : Int) * 2) 150
      Run.andThen (Run.emit (.createCanvas .tempCanvas)) (fun _ =>
      Run.andThen (drawImage host .tempCanvas img false tempWidth tempHeight) (fun tempBitmap =>
      drawImage host .canvas ⟨tempWidth, tempHeight, tempBitmap⟩ true width height))
    else
      drawImage host .canvas img false width height)
    (fun bitmap =>
      Run.andThen (Run.emit (.applySharpeningFilter width height)) (fun _ =>
      Run.ret ⟨width, height, applySharpeningFilter width height bitmap⟩))

/-- The function `clientUpscale` (lines 125-169). -/
def clientUpscale (host : Host) (scale : Int) : Run Unit :=
  Run.andThen (Run.emit (.createCanvas .canvas)) (fun _ =>
  Run.andThen (Run.emit .loadPreview) (fun _ =>
    match host.previewImg with
    | none => Run.raise "Failed to load image"
    | some img =>
      Run.tryCatch
        (Run.andThen (renderUpscaled host img scale) (fun canvas =>
          Run.andThen (Run.emit .toDataURL) (fun _ =>
            setResultSrc (host.toDataURL canvas))))
        (fun error => Run.raise error)))

/-- Lines 20-40 of `enhanceImage`: what runs once both guards are passed. -/
def enhanceAttempt (host : Host) (scale : Int) : Run Unit :=
  Run.andThen (toggleLoading true) (fun _ =>
  Run.andThen (toggleResult false) (fun _ =>
    Run.tryFinally
      (Run.tryCatch
        (Run.andThen (tryApiUpscale host scale) (fun success =>
          if !success then
            Run.andThen (clientUpscale host scale) (fun _ => showWarning fallbackMessage)
          else Run.ret ()))
        (fun _ => showError failedMessage))
      (Run.andThen (toggleLoading false) (fun _ => toggleResult true))))

/-- The function `enhanceImage` (lines 7-41). -/
def enhanceImage (host : Host) (scale : Int) : Run Unit :=
  match host.currentFile with
  | none => showError noImageMessage
  | some file =>
    if file.size > maxSize then showError tooLargeMessage
    else enhanceAttempt host scale

/-! ## Outcomes of the remote services, and hosts to try the code on -/

/-- The image the primary service delivers, when the file is read, the
response is `ok` and its body has status `success` and an `img`. -/
def primaryResult (host : Host) : Option String :=
  match host.base64, host.primary with
  | some _, .response true (some ⟨status, some img⟩) =>
    if status = "success" then some img else none
  | _, _ => none

/-- The image the alternative service delivers, when the response is `ok`
and its body has an `output_url`. -/
def alternativeResult (host : Host) : Option String :=
  match host.alternative with
  | .response true (some ⟨some url⟩) => some url
  | _ => none

/-- The calls of `tryApiUpscale` up to the answer of the primary service. -/
def primaryCalls (host : Host) (scale : Int) : List Event :=
  match host.base64 with
  | some _ => [.fileToBase64, .fetch primaryUrl scale]
  | none => [.fileToBase64]

/-- A host with a 4 by 4 red opaque preview image, a file of `size` bytes,
remote services that answer as given, and a `drawImage` that paints every
pixel red. -/
def redHost (size : Nat) (primary : FetchOutcome PrimaryPayload)
    (alternative : FetchOutcome AlternativePayload) : Host where
  currentFile := some ⟨size⟩
  base64 := some "iVBORw0KGgo="
  primary := primary
  alternative := alternative
  previewImg := some ⟨4, 4, uniformBuffer 4 4 255 0 0 255⟩
  drawImage := fun _ w h => uniformBuffer w h 255 0 0 255
  toDataURL := fun _ => "data:image/png;base64,"

/-- The host `redHost` with failing remote services and a preview image of
`width` by `height` red opaque pixels. -/
def previewHost (width height : Nat) : Host where
  currentFile := some ⟨1000⟩
  base64 := some "iVBORw0KGgo="
  primary := .networkError
  alternative := .networkError
  previewImg := some ⟨width, height, uniformBuffer width height 255 0 0 255⟩
  drawImage := fun _ w h => uniformBuffer w h 255 0 0 255
  toDataURL := fun _ => "data:image/png;base64,"

/-! ## Loops: membership and invariants -/

theorem mem_loopIndices (lo hi i : Int) : i ∈ loopIndices lo hi ↔ lo ≤ i ∧ i < hi := by
  unfold loopIndices
  simp only [List.mem_map, List.mem_range]
  constructor
  · rintro ⟨n, hn, rfl⟩
    omega
  · rintro ⟨h1, h2⟩
    exact ⟨(i - lo).toNat, by omega, by omega⟩

/-- A property that every iteration preserves holds after the loop. -/
theorem forLoop_invariant {σ : Type} (P : σ → Prop) (lo hi : Int) (body : Int → σ → σ)
    (hstep : ∀ i, lo ≤ i → i < hi → ∀ s, P s → P (body i s)) (s : σ) (hs : P s) :
    P (forLoop lo hi body s) := by
  unfold forLoop
  have key : ∀ (l : List Int), (∀ i ∈ l, lo ≤ i ∧ i < hi) → ∀ s, P s →
      P (l.foldl (fun acc i => body i acc) s) := by
    intro l
    induction l with
    | nil => intro _ s hs; simpa using hs
    | cons a l ih =>
      intro hl s hs
      simp only [List.foldl_cons]
      apply ih
      · intro i hi
        exact hl i (List.mem_cons_of_mem _ hi)
      · have := hl a (List.mem_cons_self _ _)
        exact hstep a this.1 this.2 s hs
  exact key _ (fun i hmem => (mem_loopIndices lo hi i).1 hmem) s hs

/-- A property `Q` that one iteration `i0` establishes from `R`, and that
every iteration preserves (as `R` is), holds after the loop. -/
theorem forLoop_establish {σ : Type} (R Q : σ → Prop) (lo hi : Int) (body : Int → σ → σ)
    (hR : ∀ i, lo ≤ i → i < hi → ∀ s, R s → R (body i s))
    (hQ : ∀ i, lo ≤ i → i < hi → ∀ s, Q s → Q (body i s))
    (i0 : Int) (h0 : lo ≤ i0) (h1 : i0 < hi) (hest : ∀ s, R s → Q (body i0 s))
    (s : σ) (hs : R s) : Q (forLoop lo hi body s) := by
  unfold forLoop
  have key : ∀ (l : List Int), (∀ i ∈ l, lo ≤ i ∧ i < hi) → i0 ∈ l → ∀ s, R s →
      Q (l.foldl (fun acc i => body i acc) s) := by
    intro l
    induction l with
    | nil => intro _ hmem; simp at hmem
    | cons a l ih =>
      intro hl hmem s hs
      simp only [List.foldl_cons]
      have ha := hl a (List.mem_cons_self _ _)
      have hl2 : ∀ i ∈ l, lo ≤ i ∧ i < hi := fun i hi => hl i (List.mem_cons_of_mem _ hi)
      by_cases hin : i0 ∈ l
      · exact ih hl2 hin _ (hR a ha.1 ha.2 s hs)
      · have hEq : i0 = a := by
          rcases List.mem_cons.1 hmem with h | h
          · exact h
          · exact absurd h hin
        subst hEq
        have hq : Q (body i0 s) := hest s hs
        -- the remaining iterations preserve `Q`
        have key2 : ∀ (l2 : List Int), (∀ i ∈ l2, lo ≤ i ∧ i < hi) → ∀ t, Q t →
            Q (l2.foldl (fun acc i => body i acc) t) := by
          intro l2
          induction l2 with
          | nil => intro _ t ht; simpa using ht
          | cons b l2 ih2 =>
            intro hb t ht
            simp only [List.foldl_cons]
            apply ih2
            · intro i hi
              exact hb i (List.mem_cons_of_mem _ hi)
            · have := hb b (List.mem_cons_self _ _)
              exact hQ b this.1 this.2 t ht
        exact key2 l hl2 _ hq
  exact key _ (fun i hmem => (mem_loopIndices lo hi i).1 hmem)
    ((mem_loopIndices lo hi i0).2 ⟨h0, h1⟩) s hs

/-! ## Index arithmetic -/

/-- A sample index of a pixel inside the image lies inside the buffer. -/
theorem index_in_range (width height : Nat) (Y X c : Int)
    (hY0 : 0 ≤ Y) (hY1 : Y < height) (hX0 : 0 ≤ X) (hX1 : X < width)
    (hc0 : 0 ≤ c) (hc1 : c < 4) :
    0 ≤ (Y * (width : Int) + X) * 4 + c ∧
      (Y * (width : Int) + X) * 4 + c < ((width * height * 4 : Nat) : Int) := by
  have hw : (0 : Int) ≤ width := Int.ofNat_nonneg _
  have h1 : 0 ≤ Y * (width : Int) := Int.mul_nonneg hY0 hw
  have h2 : (Y + 1) * (width : Int) ≤ (height : Int) * (width : Int) :=
    Int.mul_le_mul_of_nonneg_right (by omega) hw
  have h3 : (Y + 1) * (width : Int) = Y * (width : Int) + width := by ring
  have h4 : ((width * height * 4 : Nat) : Int) = (height : Int) * (width : Int) * 4 := by
    push_cast; ring
  constructor
  · omega
  · rw [h4]; omega

/-- Two pixels with the same sample index are the same pixel and channel. -/
theorem index_injective (width : Int) (y x c y0 x0 c0 : Int)
    (hx0 : 0 ≤ x) (hx1 : x < width) (hc0 : 0 ≤ c) (hc1 : c < 4)
    (hx0' : 0 ≤ x0) (hx1' : x0 < width) (hc0' : 0 ≤ c0) (hc1' : c0 < 4)
    (h : (y * width + x) * 4 + c = (y0 * width + x0) * 4 + c0) :
    y = y0 ∧ x = x0 ∧ c = c0 := by
  have hc : c = c0 := by omega
  have hA : y * width + x = y0 * width + x0 := by omega
  have hy : y = y0 := by
    rcases lt_trichotomy y y0 with hlt | heq | hgt
    · exfalso
      have h2 : (y + 1) * width ≤ y0 * width :=
        Int.mul_le_mul_of_nonneg_right (by omega) (by omega)
      have h3 : (y + 1) * width = y * width + width := by ring
      omega
    · exact heq
    · exfalso
      have h2 : (y0 + 1) * width ≤ y * width :=
        Int.mul_le_mul_of_nonneg_right (by omega) (by omega)
      have h3 : (y0 + 1) * width = y0 * width + width := by ring
      omega
  subst hy
  exact ⟨rfl, by omega, hc⟩

/-! ## Reads and writes -/

theorem readSample_natCast (data : List Nat) (i : Nat) (h : i < data.length) :
    readSample data (i : Int) = some ((data.getD i 0 : Nat) : Int) := by
  unfold readSample
  have h0 : ¬ ((i : Int) < 0) := by omega
  rw [if_neg h0, Int.toNat_natCast, List.getD_eq_getElem?_getD, List.getElem?_eq_getElem h]
  rfl

theorem length_writeSample (output : List Nat) (idx : Int) (v : Nat) :
    (writeSample output idx v).length = output.length := by
  unfold writeSample
  split
  · rfl
  · exact List.length_set _ _ _

theorem getElem?_writeSample_ne (output : List Nat) (idx : Int) (v : Nat) (j : Nat)
    (h : idx ≠ (j : Int)) : (writeSample output idx v)[j]? = output[j]? := by
  unfold writeSample
  split
  · rfl
  · apply List.getElem?_set_ne
    omega

theorem getElem?_writeSample_self (output : List Nat) (v : Nat) (j : Nat)
    (h : j < output.length) : (writeSample output (j : Int) v)[j]? = some v := by
  unfold writeSample
  have h0 : ¬ ((j : Int) < 0) := by omega
  rw [if_neg h0, Int.toNat_natCast]
  exact List.getElem?_set_self h

/-! ## What the three outer loops do to each sample -/

theorem length_sharpenLoops (width height : Nat) (data : List Nat) :
    (sharpenLoops width height data).length = data.length := by
  unfold sharpenLoops
  apply forLoop_invariant (fun s : List Nat => s.length = data.length)
  · intro y _ _ s hs
    apply forLoop_invariant (fun s : List Nat => s.length = data.length)
    · intro x _ _ s hs
      apply forLoop_invariant (fun s : List Nat => s.length = data.length)
      · intro c _ _ s hs
        rw [length_writeSample]; exact hs
      · exact hs
    · exact hs
  · rfl

/-- A sample that no iteration writes keeps its input value. -/
theorem sharpenLoops_untouched (width height : Nat) (data : List Nat) (j : Nat)
    (hno : ∀ y x c : Int, 1 ≤ y → y < (height : Int) - 1 → 1 ≤ x → x < (width : Int) - 1 →
      0 ≤ c → c < 3 → writeIndex width y x c ≠ (j : Int)) :
    (sharpenLoops width height data)[j]? = data[j]? := by
  unfold sharpenLoops
  apply forLoop_invariant (fun s : List Nat => s[j]? = data[j]?)
  · intro y hy0 hy1 s hs
    apply forLoop_invariant (fun s : List Nat => s[j]? = data[j]?)
    · intro x hx0 hx1 s hs
      apply forLoop_invariant (fun s : List Nat => s[j]? = data[j]?)
      · intro c hc0 hc1 s hs
        rw [getElem?_writeSample_ne _ _ _ _ (hno y x c hy0 hy1 hx0 hx1 hc0 hc1)]
        exact hs
      · exact hs
    · exact hs
  · rfl

/-- One store of the loop body keeps a sample that already holds its final
value: the store either goes elsewhere or stores that same value. -/
theorem store_preserves (width : Nat) (data : List Nat) (y0 x0 c0 : Int) (j : Nat)
    (hx0 : 1 ≤ x0) (hx1 : x0 < (width : Int) - 1) (hc0 : 0 ≤ c0) (hc1 : c0 < 3)
    (hj : writeIndex width y0 x0 c0 = (j : Int))
    (y x c : Int) (hx : 1 ≤ x) (hx' : x < (width : Int) - 1) (hc : 0 ≤ c) (hc' : c < 3)
    (s : List Nat)
    (hs : s[j]? = some (clampSample (convolve data width y0 x0 c0))) :
    (writeSample s (writeIndex width y x c)
      (clampSample (convolve data width y x c)))[j]? =
      some (clampSample (convolve data width y0 x0 c0)) := by
  by_cases heq : writeIndex width y x c = (j : Int)
  · have hinj := index_injective (width : Int) y x c y0 x0 c0 (by omega) (by omega) hc
      (by omega) (by omega) (by omega) hc0 (by omega)
      (by unfold writeIndex at heq hj; rw [heq, hj])
    obtain ⟨rfl, rfl, rfl⟩ := hinj
    have hlt : j < s.length := by
      rcases List.getElem?_eq_some.1 hs with ⟨h, _⟩
      exact h
    rw [heq]
    exact getElem?_writeSample_self s _ j hlt
  · rw [getElem?_writeSample_ne _ _ _ _ heq]
    exact hs

/-- The sample of an interior pixel and colour channel holds, after the
loops, the clamped sum computed for that pixel and channel. -/
theorem sharpenLoops_written (width height : Nat) (data : List Nat) (y0 x0 c0 : Int) (j : Nat)
    (hy0 : 1 ≤ y0) (hy1 : y0 < (height : Int) - 1)
    (hx0 : 1 ≤ x0) (hx1 : x0 < (width : Int) - 1) (hc0 : 0 ≤ c0) (hc1 : c0 < 3)
    (hj : writeIndex width y0 x0 c0 = (j : Int)) (hlen : j < data.length) :
    (sharpenLoops width height data)[j]? =
      some (clampSample (convolve data width y0 x0 c0)) := by
  unfold sharpenLoops
  apply forLoop_establish (fun s : List Nat => s.length = data.length)
    (fun s : List Nat => s[j]? = some (clampSample (convolve data width y0 x0 c0)))
    1 ((height : Int) - 1) _ _ _ y0 hy0 hy1
  · intro s hs
    apply forLoop_establish (fun s : List Nat => s.length = data.length)
      (fun s : List Nat => s[j]? = some (clampSample (convolve data width y0 x0 c0)))
      1 ((width : Int) - 1) _ _ _ x0 hx0 hx1
    · intro s hs
      apply forLoop_establish (fun s : List Nat => s.length = data.length)
        (fun s : List Nat => s[j]? = some (clampSample (convolve data width y0 x0 c0)))
        0 3 _ _ _ c0 hc0 hc1
      · intro s hs
        rw [hj]
        exact getElem?_writeSample_self s _ j (by rw [hs]; exact hlen)
      · exact hs
      · intro c _ _ s hs
        rw [length_writeSample]; exact hs
      · intro c hc hc' s hs
        exact store_preserves width data y0 x0 c0 j hx0 hx1 hc0 hc1 hj y0 x0 c hx0 hx1 hc hc' s hs
    · exact hs
    · intro x _ _ s hs
      apply forLoop_invariant (fun s : List Nat => s.length = data.length)
      · intro c _ _ s hs
        rw [length_writeSample]; exact hs
      · exact hs
    · intro x hx hx' s hs
      apply forLoop_invariant
        (fun s : List Nat => s[j]? = some (clampSample (convolve data width y0 x0 c0)))
      · intro c hc hc' s hs
        exact store_preserves width data y0 x0 c0 j hx0 hx1 hc0 hc1 hj y0 x c hx hx' hc hc' s hs
      · exact hs
  · rfl
  · intro y _ _ s hs
    apply forLoop_invariant (fun s : List Nat => s.length = data.length)
    · intro x _ _ s hs
      apply forLoop_invariant (fun s : List Nat => s.length = data.length)
      · intro c _ _ s hs
        rw [length_writeSample]; exact hs
      · exact hs
    · exact hs
  · intro y _ _ s hs
    apply forLoop_invariant
      (fun s : List Nat => s[j]? = some (clampSample (convolve data width y0 x0 c0)))
    · intro x hx hx' s hs
      apply forLoop_invariant
        (fun s : List Nat => s[j]? = some (clampSample (convolve data width y0 x0 c0)))
      · intro c hc hc' s hs
        exact store_preserves width data y0 x0 c0 j hx0 hx1 hc0 hc1 hj y x c hx hx' hc hc' s hs
      · exact hs
    · exact hs

/-! ## The convolution sum of an interior pixel -/

theorem forLoop_kernel_range {σ : Type} (body : Int → σ → σ) (s : σ) :
    forLoop (-1) 2 body s = body 1 (body 0 (body (-1) s)) := by
  have h : loopIndices (-1) 2 = [-1, 0, 1] := by decide
  unfold forLoop
  rw [h]
  rfl

theorem readSample_pixel (width height : Nat) (data : List Nat)
    (hlen : data.length = width * height * 4) (Y X c : Nat)
    (hY : Y < height) (hX : X < width) (hc : c < 4) (idx : Int)
    (hidx : idx = ((Y : Int) * (width : Int) + (X : Int)) * 4 + (c : Int)) :
    readSample data idx = some (sampleAt data ((Y * width + X) * 4 + c)) := by
  have hr := index_in_range width height (Y : Int) (X : Int) (c : Int)
    (by omega) (by omega) (by omega) (by omega) (by omega) (by omega)
  have hcast : idx = (((Y * width + X) * 4 + c : Nat) : Int) := by
    rw [hidx]; push_cast; ring
  rw [hcast]
  apply readSample_natCast
  rw [hlen]
  have h2 := hr.2
  rw [← hidx, hcast] at h2
  exact_mod_cast h2

/-- For an interior pixel `(x+1, y+1)` every one of the nine reads is inside
the buffer, and the sum is `5 * centre - up - down - left - right`. -/
theorem convolve_interior (width height : Nat) (data : List Nat)
    (hlen : data.length = width * height * 4) (y x c : Nat)
    (hy : y + 2 < height) (hx : x + 2 < width) (hc : c < 3) :
    convolve data width ((y + 1 : Nat) : Int) ((x + 1 : Nat) : Int) (c : Int) =
      some (5 * sampleAt data (((y + 1) * width + (x + 1)) * 4 + c)
        - sampleAt data ((y * width + (x + 1)) * 4 + c)
        - sampleAt data (((y + 2) * width + (x + 1)) * 4 + c)
        - sampleAt data (((y + 1) * width + x) * 4 + c)
        - sampleAt data (((y + 1) * width + (x + 2)) * 4 + c)) := by
  have r00 := readSample_pixel width height data hlen y x c (by omega) (by omega) (by omega)
    (readIndex width ((y + 1 : Nat) : Int) ((x + 1 : Nat) : Int) (c : Int) (-1) (-1))
    (by unfold readIndex; push_cast; ring)
  have r01 := readSample_pixel width height data hlen y (x + 1) c (by omega) (by omega) (by omega)
    (readIndex width ((y + 1 : Nat) : Int) ((x + 1 : Nat) : Int) (c : Int) (-1) 0)
    (by unfold readIndex; push_cast; ring)
  have r02 := readSample_pixel width height data hlen y (x + 2) c (by omega) (by omega) (by omega)
    (readIndex width ((y + 1 : Nat) : Int) ((x + 1 : Nat) : Int) (c : Int) (-1) 1)
    (by unfold readIndex; push_cast; ring)
  have r10 := readSample_pixel width height data hlen (y + 1) x c (by omega) (by omega) (by omega)
    (readIndex width ((y + 1 : Nat) : Int) ((x + 1 : Nat) : Int) (c : Int) 0 (-1))
    (by unfold readIndex; push_cast; ring)
  have r11 := readSample_pixel width height data hlen (y + 1) (x + 1) c (by omega) (by omega)
    (by omega)
    (readIndex width ((y + 1 : Nat) : Int) ((x + 1 : Nat) : Int) (c : Int) 0 0)
    (by unfold readIndex; push_cast; ring)
  have r12 := readSample_pixel width height data hlen (y + 1) (x + 2) c (by omega) (by omega)
    (by omega)
    (readIndex width ((y + 1 : Nat) : Int) ((x + 1 : Nat) : Int) (c : Int) 0 1)
    (by unfold readIndex; push_cast; ring)
  have r20 := readSample_pixel width height data hlen (y + 2) x c (by omega) (by omega) (by omega)
    (readIndex width ((y + 1 : Nat) : Int) ((x + 1 : Nat) : Int) (c : Int) 1 (-1))
    (by unfold readIndex; push_cast; ring)
  have r21 := readSample_pixel width height data hlen (y + 2) (x + 1) c (by omega) (by omega)
    (by omega)
    (readIndex width ((y + 1 : Nat) : Int) ((x + 1 : Nat) : Int) (c : Int) 1 0)
    (by unfold readIndex; push_cast; ring)
  have r22 := readSample_pixel width height data hlen (y + 2) (x + 2) c (by omega) (by omega)
    (by omega)
    (readIndex width ((y + 1 : Nat) : Int) ((x + 1 : Nat) : Int) (c : Int) 1 1)
    (by unfold readIndex; push_cast; ring)
  have k00 : readKernel (kernelIndex (-1) (-1)) = some 0 := by decide
  have k01 : readKernel (kernelIndex (-1) 0) = some (-1) := by decide
  have k02 : readKernel (kernelIndex (-1) 1) = some 0 := by decide
  have k10 : readKernel (kernelIndex 0 (-1)) = some (-1) := by decide
  have k11 : readKernel (kernelIndex 0 0) = some 5 := by decide
  have k12 : readKernel (kernelIndex 0 1) = some (-1) := by decide
  have k20 : readKernel (kernelIndex 1 (-1)) = some 0 := by decide
  have k21 : readKernel (kernelIndex 1 0) = some (-1) := by decide
  have k22 : readKernel (kernelIndex 1 1) = some 0 := by decide
  unfold convolve
  rw [forLoop_kernel_range, forLoop_kernel_range, forLoop_kernel_range, forLoop_kernel_range]
  rw [r00, r01, r02, r10, r11, r12, r20, r21, r22,
    k00, k01, k02, k10, k11, k12, k20, k21, k22]
  simp only [addProduct]
  congr 1
  ring

/-! ## The filter as a whole -/

theorem applySharpeningFilter_of_pos (width height : Nat) (bitmap : List Nat)
    (hw : 1 ≤ width) (hh : 1 ≤ height) :
    applySharpeningFilter width height bitmap = sharpenLoops width height bitmap := by
  unfold applySharpeningFilter getImageData
  have h : ¬ (width = 0 ∨ height = 0) := by omega
  rw [if_neg h]

theorem applySharpeningFilter_of_zero (width height : Nat) (bitmap : List Nat)
    (h : width = 0 ∨ height = 0) :
    applySharpeningFilter width height bitmap = bitmap := by
  unfold applySharpeningFilter getImageData
  rw [if_pos h]

theorem length_applySharpeningFilter (width height : Nat) (bitmap : List Nat) :
    (applySharpeningFilter width height bitmap).length = bitmap.length := by
  by_cases h : width = 0 ∨ height = 0
  · rw [applySharpeningFilter_of_zero _ _ _ h]
  · rw [applySharpeningFilter_of_pos _ _ _ (by omega) (by omega)]
    exact length_sharpenLoops _ _ _

/-- A sample that is not a colour sample of an interior pixel is not written. -/
theorem sharpenLoops_noninterior (width height : Nat) (data : List Nat) (X Y c : Nat)
    (hX : X < width) (hc : c < 4)
    (hni : ¬ (1 ≤ Y ∧ Y + 1 < height ∧ 1 ≤ X ∧ X + 1 < width ∧ c < 3)) :
    (sharpenLoops width height data)[(Y * width + X) * 4 + c]? =
      data[(Y * width + X) * 4 + c]? := by
  apply sharpenLoops_untouched
  intro y x c' hy0 hy1 hx0 hx1 hc0 hc1 heq
  apply hni
  have hinj := index_injective (width : Int) y x c' (Y : Int) (X : Int) (c : Int)
    (by omega) (by omega) hc0 (by omega) (by omega) (by omega) (by omega) (by omega)
    (by unfold writeIndex at heq; rw [heq]; push_cast; ring)
  obtain ⟨h1, h2, h3⟩ := hinj
  subst h1 h2 h3
  omega

theorem applySharpeningFilter_noninterior (width height : Nat) (data : List Nat) (X Y c : Nat)
    (hX : X < width) (hc : c < 4)
    (hni : ¬ (1 ≤ Y ∧ Y + 1 < height ∧ 1 ≤ X ∧ X + 1 < width ∧ c < 3)) :
    (applySharpeningFilter width height data)[(Y * width + X) * 4 + c]? =
      data[(Y * width + X) * 4 + c]? := by
  by_cases h : width = 0 ∨ height = 0
  · rw [applySharpeningFilter_of_zero _ _ _ h]
  · rw [applySharpeningFilter_of_pos _ _ _ (by omega) (by omega)]
    exact sharpenLoops_noninterior width height data X Y c hX hc hni

/-- The colour sample `c` of the interior pixel `(x+1, y+1)` after the filter. -/
theorem applySharpeningFilter_interior (width height : Nat) (data : List Nat)
    (hlen : data.length = width * height * 4) (y x c : Nat)
    (hy : y + 2 < height) (hx : x + 2 < width) (hc : c < 3) :
    (applySharpeningFilter width height data)[((y + 1) * width + (x + 1)) * 4 + c]? =
      some (clampSample (some (5 * sampleAt data (((y + 1) * width + (x + 1)) * 4 + c)
        - sampleAt data ((y * width + (x + 1)) * 4 + c)
        - sampleAt data (((y + 2) * width + (x + 1)) * 4 + c)
        - sampleAt data (((y + 1) * width + x) * 4 + c)
        - sampleAt data (((y + 1) * width + (x + 2)) * 4 + c)))) := by
  rw [applySharpeningFilter_of_pos _ _ _ (by omega) (by omega),
    ← convolve_interior width height data hlen y x c hy hx hc]
  have hr := index_in_range width height ((y + 1 : Nat) : Int) ((x + 1 : Nat) : Int) (c : Int)
    (by omega) (by omega) (by omega) (by omega) (by omega) (by omega)
  apply sharpenLoops_written width height data _ _ _ _ (by push_cast; omega)
    (by push_cast; omega) (by push_cast; omega) (by push_cast; omega) (by omega) (by omega)
  · unfold writeIndex; push_cast; ring
  · rw [hlen]
    have h2 := hr.2
    have h3 : (((y + 1 : Nat) : Int) * (width : Int) + ((x + 1 : Nat) : Int)) * 4 + (c : Int)
        = ((((y + 1) * width + (x + 1)) * 4 + c : Nat) : Int) := by push_cast; ring
    rw [h3] at h2
    exact_mod_cast h2

/-- Every sample index of the buffer is the index of one pixel and channel. -/
theorem index_decompose (width : Nat) (hw : 0 < width) (j : Nat) :
    ∃ X Y c : Nat, X < width ∧ c < 4 ∧ j = (Y * width + X) * 4 + c := by
  refine ⟨(j / 4) % width, (j / 4) / width, j % 4, Nat.mod_lt _ hw, Nat.mod_lt _ (by omega), ?_⟩
  have h1 : (j / 4) / width * width + (j / 4) % width = j / 4 := Nat.div_add_mod' _ _
  rw [h1]
  omega

/-! ## Uniform buffers -/

theorem getElem?_flatten_replicate (p : List Nat) (hp : p.length = 4) (n P c : Nat)
    (hP : P < n) (hc : c < 4) : ((List.replicate n p).flatten)[P * 4 + c]? = p[c]? := by
  induction n generalizing P with
  | zero => omega
  | succ n ih =>
    rw [List.replicate_succ, List.flatten_cons]
    cases P with
    | zero =>
      rw [List.getElem?_append_left (by omega)]
      simp
    | succ P =>
      rw [List.getElem?_append_right (by omega), hp]
      have h : (P + 1) * 4 + c - 4 = P * 4 + c := by omega
      rw [h]
      exact ih P (by omega)

theorem length_flatten_replicate (p : List Nat) (hp : p.length = 4) (n : Nat) :
    ((List.replicate n p).flatten).length = n * 4 := by
  induction n with
  | zero => rfl
  | succ n ih =>
    rw [List.replicate_succ, List.flatten_cons, List.length_append, ih, hp]
    omega

theorem length_uniformBuffer (width height r g b a : Nat) :
    (uniformBuffer width height r g b a).length = width * height * 4 :=
  length_flatten_replicate [r, g, b, a] rfl _

theorem pixel_lt (width height X Y : Nat) (hX : X < width) (hY : Y < height) :
    Y * width + X < width * height := by
  have h1 : (Y + 1) * width ≤ height * width := Nat.mul_le_mul_right _ (by omega)
  have h2 : (Y + 1) * width = Y * width + width := by ring
  have h3 : height * width = width * height := Nat.mul_comm _ _
  omega

theorem sampleAt_uniformBuffer (width height r g b a X Y c : Nat)
    (hX : X < width) (hY : Y < height) (hc : c < 4) :
    sampleAt (uniformBuffer width height r g b a) ((Y * width + X) * 4 + c) =
      (([r, g, b, a].getD c 0 : Nat) : Int) := by
  unfold sampleAt uniformBuffer
  rw [List.getD_eq_getElem?_getD,
    getElem?_flatten_replicate [r, g, b, a] rfl _ _ _ (pixel_lt width height X Y hX hY) hc,
    List.getD_eq_getElem?_getD]

theorem clampSample_uniform (v : Nat) (hv : v ≤ 255) :
    clampSample (some (5 * (v : Int) - v - v - v - v)) = v := by
  unfold clampSample
  have h : 5 * (v : Int) - v - v - v - v = v := by ring
  simp only [h]
  omega

/-! ## The remote attempts -/

theorem tryAlternativeWaifu2x_eq (host : Host) (scale : Int) :
    tryAlternativeWaifu2x host scale =
      match alternativeResult host with
      | some url => ⟨.ok true, [.fetch alternativeUrl scale, .setResultSrc url]⟩
      | none => ⟨.ok false, [.fetch alternativeUrl scale]⟩ := by
  unfold tryAlternativeWaifu2x alternativeResult fetch
  rcases h : host.alternative with _ | ⟨ok, json⟩
  · rfl
  · cases ok
    · rfl
    · rcases json with _ | ⟨⟨url⟩⟩
      · rfl
      · cases url <;> rfl

theorem tryAlternativeWaifu2x_result (host : Host) (scale : Int) :
    (tryAlternativeWaifu2x host scale).result = .ok (alternativeResult host).isSome := by
  rw [tryAlternativeWaifu2x_eq]
  cases alternativeResult host <;> rfl

theorem tryApiUpscale_eq (host : Host) (scale : Int) :
    tryApiUpscale host scale =
      match primaryResult host with
      | some img =>
        ⟨.ok true, primaryCalls host scale ++ [.setResultSrc ("data:image/png;base64," ++ img)]⟩
      | none =>
        ⟨(tryAlternativeWaifu2x host scale).result,
          primaryCalls host scale ++ (tryAlternativeWaifu2x host scale).trace⟩ := by
  have halt := tryAlternativeWaifu2x_result host scale
  unfold tryApiUpscale primaryResult primaryCalls fileToBase64 fetch
  rcases hb : host.base64 with _ | b
  · simp [Run.tryCatch, Run.andThen, Run.emit, Run.raise, halt]
  · rcases hp : host.primary with _ | ⟨ok, json⟩
    · simp [Run.tryCatch, Run.andThen, Run.emit, Run.raise, Run.ret, halt]
    · cases ok
      · simp [Run.tryCatch, Run.andThen, Run.emit, Run.raise, Run.ret, halt]
      · rcases json with _ | ⟨status, img⟩
        · simp [Run.tryCatch, Run.andThen, Run.emit, Run.raise, Run.ret, responseJson, halt]
        · by_cases hs : status = "success"
          · cases img
            · simp [Run.tryCatch, Run.andThen, Run.emit, Run.raise, Run.ret, responseJson,
                halt, hs]
            · simp [Run.tryCatch, Run.andThen, Run.emit, Run.raise, Run.ret, responseJson,
                setResultSrc, hs]
          · cases img <;>
              simp [Run.tryCatch, Run.andThen, Run.emit, Run.raise, Run.ret, responseJson,
                halt, hs]

/-! ## The local fallback -/

theorem canvasSize_natCast (n : Nat) (fallback : Nat) (hn : n ≤ maxCanvasSize) :
    canvasSize (n : Int) fallback = n := by
  unfold canvasSize
  unfold maxCanvasSize at hn ⊢
  have h0 : (0 : Int) ≤ n := Int.ofNat_nonneg n
  have hm : (n : Int) % 4294967296 = n := Int.emod_eq_of_lt h0 (by omega)
  rw [hm]
  have h : (n : Int) ≤ ((2147483647 : Nat) : Int) := by exact_mod_cast hn
  rw [if_pos h, Int.toNat_natCast]

/-- With a factor of at most 2 the canvas is drawn in one pass from the image. -/
theorem renderUpscaled_single (host : Host) (img : Surface) (scale : Int) (h : scale ≤ 2) :
    renderUpscaled host img scale =
      ⟨.ok ⟨canvasSize ((img.width : Int) * scale) 300, canvasSize ((img.height : Int) * scale) 150,
          applySharpeningFilter (canvasSize ((img.width : Int) * scale) 300)
            (canvasSize ((img.height : Int) * scale) 150)
            (host.drawImage img (canvasSize ((img.width : Int) * scale) 300)
              (canvasSize ((img.height : Int) * scale) 150))⟩,
        [.drawImage .canvas img.width img.height (canvasSize ((img.width : Int) * scale) 300)
            (canvasSize ((img.height : Int) * scale) 150),
          .applySharpeningFilter (canvasSize ((img.width : Int) * scale) 300)
            (canvasSize ((img.height : Int) * scale) 150)]⟩ := by
  have hn : ¬ (scale > 2) := by omega
  simp [renderUpscaled, drawImage, hn, Run.andThen, Run.emit, Run.ret]

/-- With a factor above 2 the canvas is drawn from a temporary canvas, itself
drawn from the image, unless that canvas has a dimension of zero. -/
theorem renderUpscaled_cascade (host : Host) (img : Surface) (scale : Int) (h : 2 < scale)
    (hw : canvasSize ((img.width : Int) * 2) 300 ≠ 0)
    (hh : canvasSize ((img.height : Int) * 2) 150 ≠ 0) :
    renderUpscaled host img scale =
      ⟨.ok ⟨canvasSize ((img.width : Int) * scale) 300, canvasSize ((img.height : Int) * scale) 150,
          applySharpeningFilter (canvasSize ((img.width : Int) * scale) 300)
            (canvasSize ((img.height : Int) * scale) 150)
            (host.drawImage
              ⟨canvasSize ((img.width : Int) * 2) 300, canvasSize ((img.height : Int) * 2) 150,
                host.drawImage img (canvasSize ((img.width : Int) * 2) 300)
                  (canvasSize ((img.height : Int) * 2) 150)⟩
              (canvasSize ((img.width : Int) * scale) 300)
              (canvasSize ((img.height : Int) * scale) 150))⟩,
        [.createCanvas .tempCanvas,
          .drawImage .tempCanvas img.width img.height (canvasSize ((img.width : Int) * 2) 300)
            (canvasSize ((img.height : Int) * 2) 150),
          .drawImage .canvas (canvasSize ((img.width : Int) * 2) 300)
            (canvasSize ((img.height : Int) * 2) 150)
            (canvasSize ((img.width : Int) * scale) 300)
            (canvasSize ((img.height : Int) * scale) 150),
          .applySharpeningFilter (canvasSize ((img.width : Int) * scale) 300)
            (canvasSize ((img.height : Int) * scale) 150)]⟩ := by
  have hp : scale > 2 := h
  simp [renderUpscaled, drawImage, hp, hw, hh, Run.andThen, Run.emit, Run.ret]

theorem clientUpscale_of_render (host : Host) (scale : Int) (img canvas : Surface)
    (calls : List Event) (himg : host.previewImg = some img)
    (hr : renderUpscaled host img scale = ⟨.ok canvas, calls⟩) :
    clientUpscale host scale =
      ⟨.ok (), [.createCanvas .canvas, .loadPreview] ++ calls ++
        [.toDataURL, .setResultSrc (host.toDataURL canvas)]⟩ := by
  simp [clientUpscale, himg, hr, Run.andThen, Run.emit, Run.tryCatch, setResultSrc]

theorem clientUpscale_of_load_error (host : Host) (scale : Int) (himg : host.previewImg = none) :
    clientUpscale host scale =
      ⟨.error "Failed to load image", [.createCanvas .canvas, .loadPreview]⟩ := by
  simp [clientUpscale, himg, Run.andThen, Run.emit, Run.raise]

theorem clientUpscale_trace_head (host : Host) (scale : Int) :
    ∃ rest, (clientUpscale host scale).trace = .createCanvas .canvas :: .loadPreview :: rest := by
  unfold clientUpscale
  rcases host.previewImg with _ | img
  · exact ⟨[], by simp [Run.andThen, Run.emit, Run.raise]⟩
  · rcases hr : (renderUpscaled host img scale).result with e | canvas
    · exact ⟨_, by simp [Run.andThen, Run.emit, Run.raise, Run.tryCatch, hr]; rfl⟩
    · exact ⟨_, by simp [Run.andThen, Run.emit, Run.raise, Run.tryCatch, hr, setResultSrc]; rfl⟩

/-! ## The orchestration -/

theorem enhanceAttempt_eq (host : Host) (scale : Int) :
    enhanceAttempt host scale =
      match (tryApiUpscale host scale).result with
      | .ok true =>
        ⟨.ok (), [.toggleLoading true, .toggleResult false] ++ (tryApiUpscale host scale).trace ++
          [.toggleLoading false, .toggleResult true]⟩
      | .ok false =>
        match (clientUpscale host scale).result with
        | .ok _ =>
          ⟨.ok (), [.toggleLoading true, .toggleResult false] ++
            (tryApiUpscale host scale).trace ++ (clientUpscale host scale).trace ++
            [.showWarning fallbackMessage] ++ [.toggleLoading false, .toggleResult true]⟩
        | .error _ =>
          ⟨.ok (), [.toggleLoading true, .toggleResult false] ++
            (tryApiUpscale host scale).trace ++ (clientUpscale host scale).trace ++
            [.showError failedMessage] ++ [.toggleLoading false, .toggleResult true]⟩
      | .error _ =>
        ⟨.ok (), [.toggleLoading true, .toggleResult false] ++ (tryApiUpscale host scale).trace ++
          [.showError failedMessage] ++ [.toggleLoading false, .toggleResult true]⟩ := by
  unfold enhanceAttempt
  rcases ha : (tryApiUpscale host scale).result with e | b
  · simp [Run.andThen, Run.tryCatch, Run.tryFinally, Run.emit, Run.ret, toggleLoading,
      toggleResult, showError, ha]
  · cases b
    · rcases hc : (clientUpscale host scale).result with e | u
      · simp [Run.andThen, Run.tryCatch, Run.tryFinally, Run.emit, Run.ret, toggleLoading,
          toggleResult, showError, showWarning, ha, hc]
      · simp [Run.andThen, Run.tryCatch, Run.tryFinally, Run.emit, Run.ret, toggleLoading,
          toggleResult, showError, showWarning, ha, hc]
    · simp [Run.andThen, Run.tryCatch, Run.tryFinally, Run.emit, Run.ret, toggleLoading,
        toggleResult, showError, ha]

theorem enhanceImage_within_limit (host : Host) (scale : Int) (file : File)
    (hfile : host.currentFile = some file) (hsize : file.size ≤ maxSize) :
    enhanceImage host scale = enhanceAttempt host scale := by
  unfold enhanceImage
  rw [hfile]
  have h : ¬ (file.size > maxSize) := by omega
  simp only [h, if_false]

theorem tryApiUpscale_trace_not_local (host : Host) (scale : Int) :
    ∀ e ∈ (tryApiUpscale host scale).trace, e.isLocal = false := by
  rw [tryApiUpscale_eq, tryAlternativeWaifu2x_eq]
  unfold primaryCalls
  cases host.base64 <;> cases primaryResult host <;> cases alternativeResult host <;>
    simp [Event.isLocal]

theorem tryApiUpscale_trace_head (host : Host) (scale : Int) :
    ∃ rest, (tryApiUpscale host scale).trace = .fileToBase64 :: rest := by
  rw [tryApiUpscale_eq]
  unfold primaryCalls
  cases host.base64 <;> cases primaryResult host <;> exact ⟨_, rfl⟩

theorem tryApiUpscale_never_throws (host : Host) (scale : Int) :
    (tryApiUpscale host scale).result =
      .ok ((primaryResult host).isSome || (alternativeResult host).isSome) := by
  rw [tryApiUpscale_eq]
  cases hp : primaryResult host
  · simp [tryAlternativeWaifu2x_result]
  · rfl

theorem enhanceAttempt_trace_prefix (host : Host) (scale : Int) :
    ∃ tail, (enhanceAttempt host scale).trace =
      [.toggleLoading true, .toggleResult false] ++ (tryApiUpscale host scale).trace ++ tail := by
  rw [enhanceAttempt_eq]
  rcases (tryApiUpscale host scale).result with e | b
  · exact ⟨_, by simp only [List.append_assoc]; rfl⟩
  · cases b
    · rcases (clientUpscale host scale).result with e | u
      · exact ⟨_, by simp only [List.append_assoc]; rfl⟩
      · exact ⟨_, by simp only [List.append_assoc]; rfl⟩
    · exact ⟨_, rfl⟩

/-! ## The claims about the sharpening filter -/

/-- C1: for a buffer of length `width*height*4`, an interior pixel
(`1 ≤ x ≤ width-2`, `1 ≤ y ≤ height-2`) and a colour channel `c < 3`, the
sample of the output at `(y*width+x)*4+c` is
`clamp(5*centre - up - down - left - right, 0, 255)`; the five operands are
samples of the input buffer, at indices inside it, and no diagonal neighbour
occurs in the value. -/
theorem sharpen_interior_sample (width height : Nat) (data : List Nat)
    (hlen : data.length = width * height * 4) (x y c : Nat)
    (hx1 : 1 ≤ x) (hx2 : x + 2 ≤ width) (hy1 : 1 ≤ y) (hy2 : y + 2 ≤ height) (hc : c < 3) :
    (applySharpeningFilter width height data)[(y * width + x) * 4 + c]? =
      some (max 0 (min 255
        (5 * sampleAt data ((y * width + x) * 4 + c)
          - sampleAt data (((y - 1) * width + x) * 4 + c)
          - sampleAt data (((y + 1) * width + x) * 4 + c)
          - sampleAt data ((y * width + (x - 1)) * 4 + c)
          - sampleAt data ((y * width + (x + 1)) * 4 + c)))).toNat ∧
    (y * width + x) * 4 + c < data.length ∧
    ((y - 1) * width + x) * 4 + c < data.length ∧
    ((y + 1) * width + x) * 4 + c < data.length ∧
    (y * width + (x - 1)) * 4 + c < data.length ∧
    (y * width + (x + 1)) * 4 + c < data.length := by
  obtain ⟨y, rfl⟩ : ∃ k, y = k + 1 := ⟨y - 1, by omega⟩
  obtain ⟨x, rfl⟩ : ∃ k, x = k + 1 := ⟨x - 1, by omega⟩
  have b0 := pixel_lt width height (x + 1) (y + 1) (by omega) (by omega)
  have b1 := pixel_lt width height (x + 1) y (by omega) (by omega)
  have b2 := pixel_lt width height (x + 1) (y + 2) (by omega) (by omega)
  have b3 := pixel_lt width height x (y + 1) (by omega) (by omega)
  have b4 := pixel_lt width height (x + 2) (y + 1) (by omega) (by omega)
  refine ⟨?_, ?_, ?_, ?_, ?_, ?_⟩
  · have h := applySharpeningFilter_interior width height data hlen y x c (by omega) (by omega) hc
    simpa [clampSample] using h
  · omega
  · simp only [Nat.add_sub_cancel]; omega
  · have e : y + 1 + 1 = y + 2 := rfl
    rw [e]; omega
  · simp only [Nat.add_sub_cancel]; omega
  · omega

theorem sharpen_interior_sample_witness :
    (applySharpeningFilter 3 3
      [1, 2, 3, 4, 10, 20, 30, 40, 1, 2, 3, 4,
       5, 6, 7, 8, 100, 200, 50, 9, 5, 6, 7, 8,
       1, 2, 3, 4, 10, 20, 30, 40, 1, 2, 3, 4])[(1 * 3 + 1) * 4 + 2]? = some 176 :=
  (sharpen_interior_sample 3 3
      [1, 2, 3, 4, 10, 20, 30, 40, 1, 2, 3, 4,
       5, 6, 7, 8, 100, 200, 50, 9, 5, 6, 7, 8,
       1, 2, 3, 4, 10, 20, 30, 40, 1, 2, 3, 4]
      (by decide) 1 1 2 (by decide) (by decide) (by decide) (by decide) (by decide)).1

/-- C2: for `width ≥ 1`, `height ≥ 1` and a buffer of length `width*height*4`,
every sample (all four channels) of a pixel in row 0, row `height-1`, column 0
or column `width-1` is the same in the output as in the input; and when
`width < 3` or `height < 3` the whole output equals the input. -/
theorem sharpen_border_unchanged (width height : Nat) (data : List Nat)
    (hw : 1 ≤ width) (hh : 1 ≤ height) (hlen : data.length = width * height * 4) :
    (∀ x y c : Nat, x < width → y < height → c < 4 →
      (y = 0 ∨ y = height - 1 ∨ x = 0 ∨ x = width - 1) →
      (applySharpeningFilter width height data)[(y * width + x) * 4 + c]? =
        data[(y * width + x) * 4 + c]? ∧ (y * width + x) * 4 + c < data.length) ∧
    ((width < 3 ∨ height < 3) → applySharpeningFilter width height data = data) := by
  constructor
  · intro x y c hx hy hc hb
    constructor
    · apply applySharpeningFilter_noninterior width height data x y c hx hc
      omega
    · have := pixel_lt width height x y hx hy
      omega
  · intro hsmall
    apply List.ext_getElem?
    intro j
    obtain ⟨X, Y, c, hX, hc, rfl⟩ := index_decompose width (by omega) j
    apply applySharpeningFilter_noninterior width height data X Y c hX hc
    omega

theorem sharpen_border_unchanged_witness :
    applySharpeningFilter 2 5 (List.range 40) = List.range 40 :=
  (sharpen_border_unchanged 2 5 (List.range 40) (by decide) (by decide) (by decide)).2
    (Or.inl (by decide))

/-- C3: for a buffer of length `width*height*4` and every pixel `(x, y)` of
the image, the alpha sample at `(y*width+x)*4+3` of the output equals the
alpha sample of the input at that index. -/
theorem sharpen_alpha_unchanged (width height : Nat) (data : List Nat)
    (hlen : data.length = width * height * 4) (x y : Nat) (hx : x < width) (hy : y < height) :
    (applySharpeningFilter width height data)[(y * width + x) * 4 + 3]? =
      data[(y * width + x) * 4 + 3]? ∧ (y * width + x) * 4 + 3 < data.length := by
  constructor
  · apply applySharpeningFilter_noninterior width height data x y 3 hx (by omega)
    omega
  · have := pixel_lt width height x y hx hy
    omega

theorem sharpen_alpha_unchanged_witness :
    (applySharpeningFilter 3 3
      [1, 2, 3, 4, 10, 20, 30, 40, 1, 2, 3, 4,
       5, 6, 7, 8, 100, 200, 50, 9, 5, 6, 7, 8,
       1, 2, 3, 4, 10, 20, 30, 40, 1, 2, 3, 4])[(1 * 3 + 1) * 4 + 3]? =
    [1, 2, 3, 4, 10, 20, 30, 40, 1, 2, 3, 4,
       5, 6, 7, 8, 100, 200, 50, 9, 5, 6, 7, 8,
       1, 2, 3, 4, 10, 20, 30, 40, 1, 2, 3, 4][(1 * 3 + 1) * 4 + 3]? :=
  (sharpen_alpha_unchanged 3 3
      [1, 2, 3, 4, 10, 20, 30, 40, 1, 2, 3, 4,
       5, 6, 7, 8, 100, 200, 50, 9, 5, 6, 7, 8,
       1, 2, 3, 4, 10, 20, 30, 40, 1, 2, 3, 4]
      (by decide) 1 1 (by decide) (by decide)).1

/-- C4: for every width and height and every colour `(r, g, b, a)` with
components in `0..255`, the filter maps the uniform buffer of that colour to
itself: every interior pixel is unchanged and the whole output equals the
input. -/
theorem sharpen_uniform_fixed (width height r g b a : Nat)
    (hr : r ≤ 255) (hg : g ≤ 255) (hb : b ≤ 255) (_ha : a ≤ 255) :
    applySharpeningFilter width height (uniformBuffer width height r g b a) =
      uniformBuffer width height r g b a := by
  by_cases hz : width = 0 ∨ height = 0
  · exact applySharpeningFilter_of_zero _ _ _ hz
  apply List.ext_getElem?
  intro j
  obtain ⟨X, Y, c, hX, hc, rfl⟩ := index_decompose width (by omega) j
  by_cases hint : 1 ≤ Y ∧ Y + 1 < height ∧ 1 ≤ X ∧ X + 1 < width ∧ c < 3
  · obtain ⟨hY1, hY2, hX1, hX2, hc3⟩ := hint
    obtain ⟨y, rfl⟩ : ∃ k, Y = k + 1 := ⟨Y - 1, by omega⟩
    obtain ⟨x, rfl⟩ : ∃ k, X = k + 1 := ⟨X - 1, by omega⟩
    rw [applySharpeningFilter_interior width height _ (length_uniformBuffer _ _ _ _ _ _) y x c
      (by omega) (by omega) hc3]
    rw [sampleAt_uniformBuffer width height r g b a (x + 1) (y + 1) c (by omega) (by omega) hc,
      sampleAt_uniformBuffer width height r g b a (x + 1) y c (by omega) (by omega) hc,
      sampleAt_uniformBuffer width height r g b a (x + 1) (y + 2) c (by omega) (by omega) hc,
      sampleAt_uniformBuffer width height r g b a x (y + 1) c (by omega) (by omega) hc,
      sampleAt_uniformBuffer width height r g b a (x + 2) (y + 1) c (by omega) (by omega) hc]
    have hv : [r, g, b, a].getD c 0 ≤ 255 := by
      have hcases : c = 0 ∨ c = 1 ∨ c = 2 := by omega
      rcases hcases with h | h | h <;> subst h <;> simpa
    rw [clampSample_uniform _ hv]
    unfold uniformBuffer
    rw [getElem?_flatten_replicate [r, g, b, a] rfl _ _ _
      (pixel_lt width height (x + 1) (y + 1) (by omega) (by omega)) hc]
    have hcases : c = 0 ∨ c = 1 ∨ c = 2 := by omega
    rcases hcases with h | h | h <;> subst h <;> rfl
  · exact applySharpeningFilter_noninterior width height _ X Y c hX hc hint

theorem sharpen_uniform_fixed_witness :
    applySharpeningFilter 8 8 (uniformBuffer 8 8 255 0 0 255) = uniformBuffer 8 8 255 0 0 255 :=
  sharpen_uniform_fixed 8 8 255 0 0 255 (by decide) (by decide) (by decide) (by decide)

theorem readSample_isSome (data : List Nat) (idx : Int) (h0 : 0 ≤ idx)
    (h1 : idx < (data.length : Int)) : (readSample data idx).isSome = true := by
  unfold readSample
  have hn : ¬ (idx < 0) := by omega
  have hlt : idx.toNat < data.length := by omega
  rw [if_neg hn, List.getElem?_eq_getElem hlt]
  rfl

/-- A loop on checked states follows the loop on plain states as long as
every iteration, started from a state satisfying the invariant, succeeds. -/
theorem forLoop_checked {σ : Type} (I : σ → Prop) (lo hi : Int) (body : Int → σ → σ)
    (bodyChecked : Int → Option σ → Option σ)
    (hstep : ∀ i, lo ≤ i → i < hi → ∀ s, I s →
      bodyChecked i (some s) = some (body i s) ∧ I (body i s))
    (s : σ) (hs : I s) :
    forLoop lo hi bodyChecked (some s) = some (forLoop lo hi body s) ∧
      I (forLoop lo hi body s) := by
  unfold forLoop
  have key : ∀ (l : List Int), (∀ i ∈ l, lo ≤ i ∧ i < hi) → ∀ s, I s →
      l.foldl (fun acc i => bodyChecked i acc) (some s) =
        some (l.foldl (fun acc i => body i acc) s) ∧
      I (l.foldl (fun acc i => body i acc) s) := by
    intro l
    induction l with
    | nil =>
      intro _ s hs
      exact ⟨rfl, hs⟩
    | cons a l ih =>
      intro hl s hs
      have ha := hl a (List.mem_cons_self _ _)
      have hst := hstep a ha.1 ha.2 s hs
      simp only [List.foldl_cons]
      rw [hst.1]
      exact ih (fun i hmem => hl i (List.mem_cons_of_mem _ hmem)) _ hst.2
  exact key _ (fun i hmem => (mem_loopIndices lo hi i).1 hmem) s hs

/-- Inside the loops the sum of a pixel is defined: all nine reads of `data`
and of `kernel` are inside their arrays. -/
theorem convolve_isSome (width height : Nat) (data : List Nat)
    (hlen : data.length = width * height * 4) (y x c : Int)
    (hy0 : 1 ≤ y) (hy1 : y < (height : Int) - 1) (hx0 : 1 ≤ x) (hx1 : x < (width : Int) - 1)
    (hc0 : 0 ≤ c) (hc1 : c < 3) :
    ∃ sum, convolve data width y x c = some sum := by
  obtain ⟨y', rfl⟩ : ∃ k : Nat, y = ((k + 1 : Nat) : Int) :=
    ⟨(y - 1).toNat, by push_cast; omega⟩
  obtain ⟨x', rfl⟩ : ∃ k : Nat, x = ((k + 1 : Nat) : Int) :=
    ⟨(x - 1).toNat, by push_cast; omega⟩
  obtain ⟨c', rfl⟩ : ∃ k : Nat, c = (k : Int) := ⟨c.toNat, by omega⟩
  exact ⟨_, convolve_interior width height data hlen y' x' c' (by push_cast at hy1; omega)
    (by push_cast at hx1; omega) (by omega)⟩

/-- With every access checked, the loops succeed on a buffer of length
`width*height*4` and give the output of the plain loops. -/
theorem sharpenLoopsChecked_eq (width height : Nat) (data : List Nat)
    (hlen : data.length = width * height * 4) :
    sharpenLoopsChecked width height data = some (sharpenLoops width height data) := by
  unfold sharpenLoopsChecked sharpenLoops
  refine (forLoop_checked (fun s : List Nat => s.length = data.length) _ _ _ _ ?_ data rfl).1
  intro y hy0 hy1 s hs
  refine forLoop_checked (fun s : List Nat => s.length = data.length) _ _ _ _ ?_ s hs
  intro x hx0 hx1 s hs
  refine forLoop_checked (fun s : List Nat => s.length = data.length) _ _ _ _ ?_ s hs
  intro c hc0 hc1 s hs
  obtain ⟨sum, hsum⟩ := convolve_isSome width height data hlen y x c hy0 hy1 hx0 hx1 hc0 hc1
  have hr := index_in_range width height y x c (by omega) (by omega) (by omega) (by omega)
    hc0 (by omega)
  have hin : 0 ≤ writeIndex width y x c ∧ writeIndex width y x c < (s.length : Int) := by
    unfold writeIndex
    rw [hs, hlen]
    exact hr
  constructor
  · rw [hsum]
    simp only [Option.bind]
    unfold writeSampleChecked writeSample
    have hneg : ¬ (writeIndex width y x c < 0) := by omega
    rw [if_pos hin, if_neg hneg]
  · show (writeSample s _ _).length = data.length
    rw [length_writeSample]
    exact hs

/-- C10: for `width ≥ 1`, `height ≥ 1` and a buffer of length exactly
`width*height*4`, the filter run with every array access checked does not
fail: no read of `data` or `kernel` and no write of `output` that
`applySharpeningFilter` makes is outside its array, so the checked run gives
exactly the output of `applySharpeningFilter`, whose length is that of the
input. In every iteration the index read `((y+ky)*width + (x+kx))*4 + c` and
the index written `(y*width+x)*4 + c` lie in `[0, width*height*4)` and the
kernel index `(ky+1)*3+(kx+1)` lies in `[0, 9)`. -/
theorem sharpen_indices_in_range (width height : Nat) (data : List Nat)
    (hw : 1 ≤ width) (hh : 1 ≤ height) (hlen : data.length = width * height * 4) :
    applySharpeningFilterChecked width height data =
      some (applySharpeningFilter width height data) ∧
    (applySharpeningFilter width height data).length = width * height * 4 ∧
    kernel.length = 9 ∧
    (∀ y x c : Int, 1 ≤ y → y < (height : Int) - 1 → 1 ≤ x → x < (width : Int) - 1 →
      0 ≤ c → c < 3 →
      (0 ≤ writeIndex width y x c ∧ writeIndex width y x c < ((width * height * 4 : Nat) : Int)) ∧
      (convolve data width y x c).isSome = true ∧
      ∀ ky kx : Int, -1 ≤ ky → ky ≤ 1 → -1 ≤ kx → kx ≤ 1 →
        (0 ≤ readIndex width y x c ky kx ∧
          readIndex width y x c ky kx < ((width * height * 4 : Nat) : Int)) ∧
        (0 ≤ kernelIndex ky kx ∧ kernelIndex ky kx < (kernel.length : Int)) ∧
        (readSample data (readIndex width y x c ky kx)).isSome = true ∧
        (readKernel (kernelIndex ky kx)).isSome = true) := by
  refine ⟨?_, ?_, rfl, ?_⟩
  · rw [applySharpeningFilter_of_pos _ _ _ hw hh, ← sharpenLoopsChecked_eq width height data hlen]
    unfold applySharpeningFilterChecked getImageData
    have h : ¬ (width = 0 ∨ height = 0) := by omega
    rw [if_neg h]
  · rw [length_applySharpeningFilter, hlen]
  · intro y x c hy0 hy1 hx0 hx1 hc0 hc1
    refine ⟨?_, ?_, ?_⟩
    · exact index_in_range width height y x c (by omega) (by omega) (by omega) (by omega)
        hc0 (by omega)
    · obtain ⟨sum, hsum⟩ := convolve_isSome width height data hlen y x c hy0 hy1 hx0 hx1 hc0 hc1
      rw [hsum]
      rfl
    · intro ky kx hky0 hky1 hkx0 hkx1
      have hr : 0 ≤ readIndex width y x c ky kx ∧
          readIndex width y x c ky kx < ((width * height * 4 : Nat) : Int) := by
        unfold readIndex
        exact index_in_range width height (y + ky) (x + kx) c (by omega) (by omega) (by omega)
          (by omega) hc0 (by omega)
      have hky : ky = -1 ∨ ky = 0 ∨ ky = 1 := by omega
      have hkx : kx = -1 ∨ kx = 0 ∨ kx = 1 := by omega
      refine ⟨hr, ?_, ?_, ?_⟩
      · rcases hky with h | h | h <;> rcases hkx with h' | h' | h' <;> subst h <;> subst h' <;>
          decide
      · exact readSample_isSome data _ hr.1 (by rw [hlen]; exact hr.2)
      · rcases hky with h | h | h <;> rcases hkx with h' | h' | h' <;> subst h <;> subst h' <;>
          decide

theorem sharpen_indices_in_range_witness :
    applySharpeningFilterChecked 3 3
      [1, 2, 3, 4, 10, 20, 30, 40, 1, 2, 3, 4,
       5, 6, 7, 8, 100, 200, 50, 9, 5, 6, 7, 8,
       1, 2, 3, 4, 10, 20, 30, 40, 1, 2, 3, 4] =
    some (applySharpeningFilter 3 3
      [1, 2, 3, 4, 10, 20, 30, 40, 1, 2, 3, 4,
       5, 6, 7, 8, 100, 200, 50, 9, 5, 6, 7, 8,
       1, 2, 3, 4, 10, 20, 30, 40, 1, 2, 3, 4]) :=
  (sharpen_indices_in_range 3 3
      [1, 2, 3, 4, 10, 20, 30, 40, 1, 2, 3, 4,
       5, 6, 7, 8, 100, 200, 50, 9, 5, 6, 7, 8,
       1, 2, 3, 4, 10, 20, 30, 40, 1, 2, 3, 4]
      (by decide) (by decide) (by decide)).1

/-! ## The claims about the pipeline -/

/-- C5: when the selected file is larger than `5*1024*1024` bytes,
`enhanceImage` reports the failure with `showError` and returns: that call is
the only one it makes, so there is no call of `tryApiUpscale`, none of
`clientUpscale` and no toggling of the loading or result state. A file of
exactly `5*1024*1024` bytes passes the guard: the run is that of lines 20-40,
which toggles the state and starts the remote attempt. -/
theorem oversized_file_rejected (host : Host) (scale : Int) (file : File)
    (hfile : host.currentFile = some file) :
    (file.size > 5 * 1024 * 1024 →
      enhanceImage host scale = ⟨.ok (), [.showError tooLargeMessage]⟩) ∧
    (file.size = 5 * 1024 * 1024 →
      enhanceImage host scale = enhanceAttempt host scale ∧
      ∃ rest, (enhanceImage host scale).trace =
        .toggleLoading true :: .toggleResult false :: .fileToBase64 :: rest) := by
  constructor
  · intro hbig
    unfold enhanceImage
    rw [hfile]
    have h : file.size > maxSize := hbig
    simp only [h, if_true]
    rfl
  · intro heq
    have hle : file.size ≤ maxSize := by unfold maxSize; omega
    have h1 := enhanceImage_within_limit host scale file hfile hle
    refine ⟨h1, ?_⟩
    obtain ⟨tail, ht⟩ := enhanceAttempt_trace_prefix host scale
    obtain ⟨rest, hr⟩ := tryApiUpscale_trace_head host scale
    rw [h1, ht, hr]
    exact ⟨rest ++ tail, rfl⟩

theorem oversized_file_rejected_witness :
    enhanceImage (redHost (5 * 1024 * 1024 + 1) .networkError .networkError) 2 =
      ⟨.ok (), [.showError tooLargeMessage]⟩ :=
  (oversized_file_rejected (redHost (5 * 1024 * 1024 + 1) .networkError .networkError) 2
    ⟨5 * 1024 * 1024 + 1⟩ rfl).1 (Nat.lt_succ_self _)

/-- C6: for a selected file within the size ceiling and every scale, when
`tryApiUpscale` resolves with `true`, `enhanceImage` resolves, its calls are
the two toggles, the calls of `tryApiUpscale` and the two final toggles, none
of them a call of the local fallback (`clientUpscale`, the resampling,
`applySharpeningFilter`), no warning and no error is shown, and the result
image is the one a remote service delivered. -/
theorem remote_success_skips_fallback (host : Host) (scale : Int) (file : File)
    (hfile : host.currentFile = some file) (hsize : file.size ≤ maxSize)
    (hok : (tryApiUpscale host scale).result = .ok true) :
    (enhanceImage host scale).result = .ok () ∧
    (enhanceImage host scale).trace =
      [.toggleLoading true, .toggleResult false] ++ (tryApiUpscale host scale).trace ++
        [.toggleLoading false, .toggleResult true] ∧
    (∀ e ∈ (enhanceImage host scale).trace, e.isLocal = false) ∧
    (∀ m, Event.showWarning m ∉ (enhanceImage host scale).trace) ∧
    (∀ m, Event.showError m ∉ (enhanceImage host scale).trace) ∧
    (∃ src, Event.setResultSrc src ∈ (enhanceImage host scale).trace ∧
      ((∃ img, primaryResult host = some img ∧ src = "data:image/png;base64," ++ img) ∨
        (primaryResult host = none ∧ alternativeResult host = some src))) := by
  have h1 := enhanceImage_within_limit host scale file hfile hsize
  have h2 := enhanceAttempt_eq host scale
  rw [hok] at h2
  simp only at h2
  have htrace : (enhanceImage host scale).trace =
      [.toggleLoading true, .toggleResult false] ++ (tryApiUpscale host scale).trace ++
        [.toggleLoading false, .toggleResult true] := by rw [h1, h2]
  have hapi := tryApiUpscale_eq host scale
  have halt := tryAlternativeWaifu2x_eq host scale
  refine ⟨by rw [h1, h2], htrace, ?_, ?_, ?_, ?_⟩
  · intro e he
    rw [htrace] at he
    simp only [List.mem_append, List.mem_cons, List.mem_singleton, List.not_mem_nil,
      or_false] at he
    rcases he with ((h | h) | h) | h | h
    · subst h; rfl
    · subst h; rfl
    · exact tryApiUpscale_trace_not_local host scale e h
    · subst h; rfl
    · subst h; rfl
  · intro m hm
    rw [htrace, hapi, halt] at hm
    unfold primaryCalls at hm
    revert hm
    cases host.base64 <;> cases primaryResult host <;> cases alternativeResult host <;> simp
  · intro m hm
    rw [htrace, hapi, halt] at hm
    unfold primaryCalls at hm
    revert hm
    cases host.base64 <;> cases primaryResult host <;> cases alternativeResult host <;> simp
  · rw [htrace]
    rw [hapi, halt] at hok ⊢
    revert hok
    rcases primaryResult host with _ | img
    · rcases alternativeResult host with _ | url
      · intro hok
        simp at hok
      · intro _
        exact ⟨url, by simp, Or.inr ⟨rfl, rfl⟩⟩
    · intro _
      exact ⟨"data:image/png;base64," ++ img, by simp, Or.inl ⟨img, rfl, rfl⟩⟩

theorem remote_success_skips_fallback_witness :
    (enhanceImage
      (redHost 1000 (.response true (some ⟨"success", some "AAAA"⟩)) .networkError) 2).trace =
      [.toggleLoading true, .toggleResult false] ++
        (tryApiUpscale
          (redHost 1000 (.response true (some ⟨"success", some "AAAA"⟩)) .networkError) 2).trace ++
        [.toggleLoading false, .toggleResult true] :=
  (remote_success_skips_fallback
    (redHost 1000 (.response true (some ⟨"success", some "AAAA"⟩)) .networkError) 2 ⟨1000⟩ rfl
    (by decide) (by rw [tryApiUpscale_never_throws]; rfl)).2.1

theorem primaryUrl_ne_alternativeUrl : primaryUrl ≠ alternativeUrl := by decide

theorem tryApiUpscale_no_showError (host : Host) (scale : Int) (m : String) :
    Event.showError m ∉ (tryApiUpscale host scale).trace := by
  rw [tryApiUpscale_eq, tryAlternativeWaifu2x_eq]
  unfold primaryCalls
  cases host.base64 <;> cases primaryResult host <;> cases alternativeResult host <;> simp

/-- C7: whatever the two services answer (success, a rejected fetch or
another exception, a status that is not ok, an ok status whose body is missing
or malformed), `tryApiUpscale` resolves and never throws; the alternative
service is called exactly when the primary one failed, and then after the
calls made for the primary one; the result is `false` exactly when both
failed; and for a file within the ceiling `enhanceImage` makes the calls of
the local fallback exactly in that case, after all the calls of
`tryApiUpscale`. -/
theorem remote_attempts_then_fallback (host : Host) (scale : Int) :
    (∃ b, (tryApiUpscale host scale).result = .ok b) ∧
    ((∃ s, Event.fetch alternativeUrl s ∈ (tryApiUpscale host scale).trace) ↔
      primaryResult host = none) ∧
    (primaryResult host = none →
      (tryApiUpscale host scale).trace =
        primaryCalls host scale ++ (tryAlternativeWaifu2x host scale).trace ∧
      (tryApiUpscale host scale).result = (tryAlternativeWaifu2x host scale).result ∧
      ∀ s, Event.fetch alternativeUrl s ∉ primaryCalls host scale) ∧
    ((tryApiUpscale host scale).result = .ok false ↔
      primaryResult host = none ∧ alternativeResult host = none) ∧
    (∀ file, host.currentFile = some file → file.size ≤ maxSize →
      ((∃ e ∈ (enhanceImage host scale).trace, e.isLocal = true) ↔
        (tryApiUpscale host scale).result = .ok false) ∧
      ((tryApiUpscale host scale).result = .ok false →
        ∃ rest tail, (clientUpscale host scale).trace =
            .createCanvas .canvas :: .loadPreview :: rest ∧
          (enhanceImage host scale).trace =
            [.toggleLoading true, .toggleResult false] ++ (tryApiUpscale host scale).trace ++
              (clientUpscale host scale).trace ++ tail)) := by
  have hres := tryApiUpscale_never_throws host scale
  have hapi := tryApiUpscale_eq host scale
  have halt := tryAlternativeWaifu2x_eq host scale
  have hne := primaryUrl_ne_alternativeUrl
  have hne2 : ¬ alternativeUrl = primaryUrl := fun h => hne h.symm
  refine ⟨⟨_, hres⟩, ?_, ?_, ?_, ?_⟩
  · rw [hapi, halt]
    unfold primaryCalls
    cases host.base64 <;> cases primaryResult host <;> cases alternativeResult host <;>
      simp [hne, hne2]
  · intro hp
    rw [hapi, hp]
    refine ⟨rfl, rfl, ?_⟩
    unfold primaryCalls
    cases host.base64 <;> simp [hne, hne2]
  · rw [hres]
    cases primaryResult host <;> cases alternativeResult host <;> simp
  · intro file hfile hsize
    have h1 := enhanceImage_within_limit host scale file hfile hsize
    have h2 := enhanceAttempt_eq host scale
    obtain ⟨rest, hrest⟩ := clientUpscale_trace_head host scale
    have hloc := tryApiUpscale_trace_not_local host scale
    rw [h1]
    rcases hb : (tryApiUpscale host scale).result with e | b
    · rw [hres] at hb
      cases hb
    · rw [hb] at h2
      cases b
      · constructor
        · constructor
          · intro _
            rfl
          · intro _
            refine ⟨.createCanvas .canvas, ?_, rfl⟩
            rcases hc : (clientUpscale host scale).result with e | u
            · rw [hc] at h2
              simp only at h2
              rw [h2, hrest]
              simp
            · rw [hc] at h2
              simp only at h2
              rw [h2, hrest]
              simp
        · intro _
          refine ⟨rest, ?_, hrest, ?_⟩
          · exact (match (clientUpscale host scale).result with
              | .ok _ => [.showWarning fallbackMessage] ++
                  [.toggleLoading false, .toggleResult true]
              | .error _ => [.showError failedMessage] ++
                  [.toggleLoading false, .toggleResult true])
          · rcases hc : (clientUpscale host scale).result with e | u
            · rw [hc] at h2
              simp only at h2
              rw [h2]
              simp only [List.append_assoc]
            · rw [hc] at h2
              simp only at h2
              rw [h2]
              simp only [List.append_assoc]
      · simp only at h2
        constructor
        · constructor
          · rintro ⟨e, he, hl⟩
            exfalso
            rw [h2] at he
            simp only [List.mem_append, List.mem_cons, List.mem_singleton, List.not_mem_nil,
              or_false] at he
            rcases he with ((h | h) | h) | h | h
            · subst h; cases hl
            · subst h; cases hl
            · rw [hloc e h] at hl; cases hl
            · subst h; cases hl
            · subst h; cases hl
          · intro h
            cases h
        · intro h
          cases h

theorem canvasSize_mul (n factor fallback : Nat) (h : n * factor ≤ maxCanvasSize) :
    canvasSize ((n : Int) * (factor : Int)) fallback = n * factor := by
  have h2 := canvasSize_natCast (n * factor) fallback h
  push_cast at h2
  exact h2

theorem canvasSize_two (n fallback : Nat) (h : n * 2 ≤ maxCanvasSize) :
    canvasSize ((n : Int) * 2) fallback = n * 2 := by
  have h2 := canvasSize_natCast (n * 2) fallback h
  push_cast at h2
  exact h2

/-- C8, refuted as stated: for a preview image of 268435456 by 1 pixels and
factor 8 the canvas `clientUpscale` encodes is 300 wide, not `268435456 * 8`
wide, because a canvas dimension above `2147483647` falls back to the default
of the attribute. -/
theorem oversize_canvas_falls_back :
    (∃ canvas calls,
      renderUpscaled (previewHost 268435456 1)
        ⟨268435456, 1, uniformBuffer 268435456 1 255 0 0 255⟩ 8 = ⟨.ok canvas, calls⟩ ∧
      clientUpscale (previewHost 268435456 1) 8 =
        ⟨.ok (), [.createCanvas .canvas, .loadPreview] ++ calls ++
          [.toDataURL, .setResultSrc ((previewHost 268435456 1).toDataURL canvas)]⟩ ∧
      canvas.width = 300 ∧ canvas.height = 8) ∧
    ¬ (∃ canvas calls,
      renderUpscaled (previewHost 268435456 1)
        ⟨268435456, 1, uniformBuffer 268435456 1 255 0 0 255⟩ 8 = ⟨.ok canvas, calls⟩ ∧
      canvas.width = 268435456 * 8) := by
  have t1 : canvasSize (((268435456 : Nat) : Int) * 2) 300 = 536870912 := by decide
  have t2 : canvasSize (((1 : Nat) : Int) * 2) 150 = 2 := by decide
  have c1 : canvasSize (((268435456 : Nat) : Int) * 8) 300 = 300 := by decide
  have c2 : canvasSize (((1 : Nat) : Int) * 8) 150 = 8 := by decide
  have hr := renderUpscaled_cascade (previewHost 268435456 1)
    ⟨268435456, 1, uniformBuffer 268435456 1 255 0 0 255⟩ 8 (by decide)
    (by rw [t1]; decide) (by rw [t2]; decide)
  simp only [t1, t2, c1, c2] at hr
  constructor
  · exact ⟨_, _, hr, clientUpscale_of_render (previewHost 268435456 1) 8 _ _ _ rfl hr, rfl, rfl⟩
  · rintro ⟨canvas, calls, h1, h2⟩
    rw [hr] at h1
    injection h1 with h3 _
    injection h3 with h4
    rw [← h4] at h2
    revert h2
    decide

/-- C8, amended: for a preview image of width `w ≥ 1` and height `h ≥ 1` and
every natural factor (1, 2, 3, 4 and 8 among them) such that `w*factor` and
`h*factor` do not exceed `2147483647`, the largest size a canvas holds,
`clientUpscale` resolves and the canvas it encodes has dimensions exactly
`(w*factor, h*factor)`; with `factor ≤ 2` it is the sharpened result of one
`drawImage` pass from the image, and with `factor > 2` of two passes, the
first onto a temporary canvas of dimensions exactly `(2*w, 2*h)` and the second
from that canvas. When `drawImage` fills a canvas completely, the buffer has
length `w*factor * h*factor * 4`. -/
theorem clientUpscale_dimensions (host : Host) (img : Surface) (factor : Nat)
    (himg : host.previewImg = some img) (hw : 1 ≤ img.width) (hh : 1 ≤ img.height)
    (hrw : img.width * factor ≤ 2147483647) (hrh : img.height * factor ≤ 2147483647) :
    ∃ canvas calls,
      renderUpscaled host img (factor : Int) = ⟨.ok canvas, calls⟩ ∧
      clientUpscale host (factor : Int) =
        ⟨.ok (), [.createCanvas .canvas, .loadPreview] ++ calls ++
          [.toDataURL, .setResultSrc (host.toDataURL canvas)]⟩ ∧
      canvas.width = img.width * factor ∧ canvas.height = img.height * factor ∧
      (factor ≤ 2 →
        calls = [.drawImage .canvas img.width img.height (img.width * factor)
            (img.height * factor),
          .applySharpeningFilter (img.width * factor) (img.height * factor)] ∧
        canvas.data = applySharpeningFilter (img.width * factor) (img.height * factor)
          (host.drawImage img (img.width * factor) (img.height * factor))) ∧
      (2 < factor →
        calls = [.createCanvas .tempCanvas,
          .drawImage .tempCanvas img.width img.height (img.width * 2) (img.height * 2),
          .drawImage .canvas (img.width * 2) (img.height * 2) (img.width * factor)
            (img.height * factor),
          .applySharpeningFilter (img.width * factor) (img.height * factor)] ∧
        canvas.data = applySharpeningFilter (img.width * factor) (img.height * factor)
          (host.drawImage
            ⟨img.width * 2, img.height * 2, host.drawImage img (img.width * 2) (img.height * 2)⟩
            (img.width * factor) (img.height * factor))) ∧
      ((∀ source w h, (host.drawImage source w h).length = w * h * 4) →
        canvas.data.length = canvas.width * canvas.height * 4) := by
  have hcw := canvasSize_mul img.width factor 300 hrw
  have hch := canvasSize_mul img.height factor 150 hrh
  by_cases hf : factor ≤ 2
  · have hr := renderUpscaled_single host img (factor : Int) (by omega)
    rw [hcw, hch] at hr
    refine ⟨_, _, hr, clientUpscale_of_render host _ img _ _ himg hr, rfl, rfl, ?_, ?_, ?_⟩
    · intro _
      exact ⟨rfl, rfl⟩
    · intro h
      omega
    · intro hdraw
      show (applySharpeningFilter _ _ _).length = _
      rw [length_applySharpeningFilter, hdraw]
  · have h2w : img.width * 2 ≤ maxCanvasSize :=
      le_trans (Nat.mul_le_mul_left _ (by omega)) hrw
    have h2h : img.height * 2 ≤ maxCanvasSize :=
      le_trans (Nat.mul_le_mul_left _ (by omega)) hrh
    have htw := canvasSize_two img.width 300 h2w
    have hth := canvasSize_two img.height 150 h2h
    have hr := renderUpscaled_cascade host img (factor : Int) (by omega)
      (by rw [htw]; omega) (by rw [hth]; omega)
    rw [hcw, hch, htw, hth] at hr
    refine ⟨_, _, hr, clientUpscale_of_render host _ img _ _ himg hr, rfl, rfl, ?_, ?_, ?_⟩
    · intro h
      omega
    · intro _
      exact ⟨rfl, rfl⟩
    · intro hdraw
      show (applySharpeningFilter _ _ _).length = _
      rw [length_applySharpeningFilter, hdraw]

theorem clientUpscale_dimensions_witness :
    ∃ canvas calls,
      renderUpscaled (previewHost 4 4) ⟨4, 4, uniformBuffer 4 4 255 0 0 255⟩
        ((4 : Nat) : Int) = ⟨.ok canvas, calls⟩ ∧
      canvas.width = 4 * 4 ∧ canvas.height = 4 * 4 ∧
      calls = [.createCanvas .tempCanvas, .drawImage .tempCanvas 4 4 (4 * 2) (4 * 2),
        .drawImage .canvas (4 * 2) (4 * 2) (4 * 4) (4 * 4),
        .applySharpeningFilter (4 * 4) (4 * 4)] :=
  match clientUpscale_dimensions (previewHost 4 4)
      ⟨4, 4, uniformBuffer 4 4 255 0 0 255⟩ 4 rfl (by decide) (by decide) (by decide)
      (by decide) with
  | ⟨canvas, calls, h1, _, h3, h4, _, h6, _⟩ => ⟨canvas, calls, h1, h3, h4, (h6 (by decide)).1⟩

/-- C9, refuted as stated: with scale factor 0, a preview image that loads and
remote services that fail, `clientUpscale` does not fail, and `enhanceImage`
shows no error. -/
theorem zero_scale_not_rejected :
    ¬ (∃ e, (clientUpscale (redHost 1000 .networkError .networkError) 0).result = .error e) ∧
    ¬ (∃ m, Event.showError m ∈
      (enhanceImage (redHost 1000 .networkError .networkError) 0).trace) := by
  have hr := renderUpscaled_single (redHost 1000 .networkError .networkError)
    ⟨4, 4, uniformBuffer 4 4 255 0 0 255⟩ 0 (by decide)
  have hc := clientUpscale_of_render (redHost 1000 .networkError .networkError) 0 _ _ _ rfl hr
  constructor
  · rintro ⟨e, he⟩
    rw [hc] at he
    cases he
  · rintro ⟨m, hm⟩
    have h1 := enhanceImage_within_limit (redHost 1000 .networkError .networkError) 0
      ⟨1000⟩ rfl (by decide)
    have h2 := enhanceAttempt_eq (redHost 1000 .networkError .networkError) 0
    have h3 := tryApiUpscale_never_throws (redHost 1000 .networkError .networkError) 0
    have h4 : ((primaryResult (redHost 1000 .networkError .networkError)).isSome ||
        (alternativeResult (redHost 1000 .networkError .networkError)).isSome) = false := rfl
    rw [h4] at h3
    rw [h3, hc] at h2
    simp only at h2
    rw [h1, h2] at hm
    simp only [List.mem_append, List.mem_cons, List.mem_singleton, List.not_mem_nil,
      or_false] at hm
    rcases hm with (((h | h) | h) | h) | h
    · rcases h with h | h <;> cases h
    · exact tryApiUpscale_no_showError _ _ _ h
    · rcases h with (h | h) | h
      · rcases h with h | h <;> cases h
      · rcases h with h | h <;> cases h
      · rcases h with h | h <;> cases h
    · cases h
    · rcases h with h | h <;> cases h

theorem tryApiUpscale_no_showWarning (host : Host) (scale : Int) (m : String) :
    Event.showWarning m ∉ (tryApiUpscale host scale).trace := by
  rw [tryApiUpscale_eq, tryAlternativeWaifu2x_eq]
  unfold primaryCalls
  cases host.base64 <;> cases primaryResult host <;> cases alternativeResult host <;> simp

theorem enhanceImage_fallback (host : Host) (scale : Int) (file : File)
    (hfile : host.currentFile = some file) (hsize : file.size ≤ maxSize)
    (hfail : (tryApiUpscale host scale).result = .ok false) :
    enhanceImage host scale =
      ⟨.ok (), [.toggleLoading true, .toggleResult false] ++ (tryApiUpscale host scale).trace ++
        (clientUpscale host scale).trace ++
        [match (clientUpscale host scale).result with
          | .ok _ => .showWarning fallbackMessage
          | .error _ => .showError failedMessage] ++
        [.toggleLoading false, .toggleResult true]⟩ := by
  rw [enhanceImage_within_limit host scale file hfile hsize, enhanceAttempt_eq, hfail]
  rcases (clientUpscale host scale).result with e | u <;> rfl

/-- C9, amended: `clientUpscale` does not validate the scale factor. For every
factor that is 0 or negative, when the preview image loads it resolves and
sets a result image, drawn in one pass (for factor 0 from a canvas of size
0 by 0, left unsharpened); it rejects only when the preview image fails to
load, with `Failed to load image`. After failed remote attempts
`enhanceImage` therefore shows the fallback warning and no error when the
preview image loads, and the error `failedMessage` when it does not. -/
theorem nonpositive_scale_not_validated (host : Host) (scale : Int) (hs : scale ≤ 0) :
    (∀ img, host.previewImg = some img →
      ∃ canvas calls,
        renderUpscaled host img scale = ⟨.ok canvas, calls⟩ ∧
        clientUpscale host scale =
          ⟨.ok (), [.createCanvas .canvas, .loadPreview] ++ calls ++
            [.toDataURL, .setResultSrc (host.toDataURL canvas)]⟩ ∧
        calls = [.drawImage .canvas img.width img.height canvas.width canvas.height,
          .applySharpeningFilter canvas.width canvas.height] ∧
        (scale = 0 → canvas = ⟨0, 0, host.drawImage img 0 0⟩)) ∧
    (host.previewImg = none →
      clientUpscale host scale =
        ⟨.error "Failed to load image", [.createCanvas .canvas, .loadPreview]⟩) ∧
    (∀ file, host.currentFile = some file → file.size ≤ maxSize →
      (tryApiUpscale host scale).result = .ok false →
      (enhanceImage host scale).result = .ok () ∧
      (host.previewImg ≠ none →
        Event.showWarning fallbackMessage ∈ (enhanceImage host scale).trace ∧
        ∀ m, Event.showError m ∉ (enhanceImage host scale).trace) ∧
      (host.previewImg = none →
        Event.showError failedMessage ∈ (enhanceImage host scale).trace ∧
        ∀ m, Event.showWarning m ∉ (enhanceImage host scale).trace)) := by
  refine ⟨?_, ?_, ?_⟩
  · intro img himg
    have hr := renderUpscaled_single host img scale (by omega)
    refine ⟨_, _, hr, clientUpscale_of_render host scale img _ _ himg hr, rfl, ?_⟩
    intro h0
    subst h0
    have e1 : canvasSize ((img.width : Int) * 0) 300 = 0 := by simp [canvasSize]
    have e2 : canvasSize ((img.height : Int) * 0) 150 = 0 := by simp [canvasSize]
    rw [e1, e2, applySharpeningFilter_of_zero 0 0 _ (Or.inl rfl)]
  · intro himg
    exact clientUpscale_of_load_error host scale himg
  · intro file hfile hsize hfail
    have hE := enhanceImage_fallback host scale file hfile hsize hfail
    have hnoE := tryApiUpscale_no_showError host scale
    have hnoW := tryApiUpscale_no_showWarning host scale
    refine ⟨by rw [hE], ?_, ?_⟩
    · intro himg
      obtain ⟨img, himg⟩ : ∃ img, host.previewImg = some img := by
        cases h : host.previewImg with
        | none => exact absurd h himg
        | some img => exact ⟨img, rfl⟩
      have hr := renderUpscaled_single host img scale (by omega)
      have hc := clientUpscale_of_render host scale img _ _ himg hr
      rw [hc] at hE
      simp only at hE
      rw [hE]
      constructor
      · simp
      · intro m hm
        simp only [List.mem_append, List.mem_cons, List.mem_singleton, List.not_mem_nil,
          or_false] at hm
        rcases hm with (((h | h) | h) | h) | h
        · rcases h with h | h <;> cases h
        · exact hnoE m h
        · rcases h with (h | h) | h
          · rcases h with h | h <;> cases h
          · rcases h with h | h <;> cases h
          · rcases h with h | h <;> cases h
        · cases h
        · rcases h with h | h <;> cases h
    · intro himg
      have hc := clientUpscale_of_load_error host scale himg
      rw [hc] at hE
      simp only at hE
      rw [hE]
      constructor
      · simp
      · intro m hm
        simp only [List.mem_append, List.mem_cons, List.mem_singleton, List.not_mem_nil,
          or_false] at hm
        rcases hm with (((h | h) | h) | h) | h
        · rcases h with h | h <;> cases h
        · exact hnoW m h
        · rcases h with h | h <;> cases h
        · cases h
        · rcases h with h | h <;> cases h

theorem nonpositive_scale_not_validated_witness :
    clientUpscale (redHost 1000 .networkError .networkError) (-2) =
      ⟨.ok (), [.createCanvas .canvas, .loadPreview] ++
        [.drawImage .canvas 4 4 300 150, .applySharpeningFilter 300 150] ++
        [.toDataURL, .setResultSrc "data:image/png;base64,"]⟩ :=
  match (nonpositive_scale_not_validated (redHost 1000 .networkError .networkError) (-2)
      (by decide)).1 ⟨4, 4, uniformBuffer 4 4 255 0 0 255⟩ rfl with
  | ⟨_, _, h1, h2, h3, _⟩ => by
    rw [h2, h3]
    have hr := renderUpscaled_single (redHost 1000 .networkError .networkError)
      ⟨4, 4, uniformBuffer 4 4 255 0 0 255⟩ (-2) (by decide)
    rw [hr] at h1
    cases h1
    rfl

end Upscaler
